import Mathlib

/-!
A verification development for the browser grid-puzzle game with a Python
console bridge.  The game-state controller (`src/game.ts`, class
`GridPuzzle3D`), the main-thread command dispatcher
(`src/python-repl.ts`, `PythonREPL.handleSyncGameMethod`) and the
worker-side blocking bridge (`public/python-worker.js`,
`callGameMethodSync`) are shallowly embedded as executable Lean
functions, and the behavioural claims about them are settled as theorems.

Modelling conventions:
* Grid cells are `Int × Int`.  The source keys its collections by the
  string `keyOf(i, j) = i + "," + j`, which is injective on integer
  pairs, so sets/maps keyed by those strings are modelled as
  `Finset (Int × Int)` / association lists over `Int × Int`.
* The player's rotation is a radian angle that is only ever changed by
  `rotatePlayerAsync(±π/2)` followed by normalisation into `[0, 2π)`,
  so in every state it is one of `0, π/2, π, 3π/2`; it is modelled as
  `facing : Fin 4` with rotation `= facing · π/2`.  The forward offset
  `(Math.round(cos r), Math.round(sin r))` evaluates on those four
  angles (as IEEE doubles) to exactly `(1,0), (0,1), (-1,0), (0,-1)`.
* Animations (tweens over `onBeforeRenderObservable`) only interpolate
  mesh positions; the state mutations before/after them are kept in
  source order.  `moving` is set and cleared around them exactly as in
  the source.
-/

namespace Maze

/-- One button entry of the `buttons` map of `GridPuzzle3D`:
`{ mesh, direction, toggled }` (the mesh is render-only and dropped).
The direction is a quarter-turn angle `direction = dir · π/2`. -/
structure GameButton where
  direction : Fin 4
  toggled : Bool
deriving DecidableEq

/-- The mutable state of `GridPuzzle3D` (src/game.ts) that the command
handlers read and write: the `player` record fields `x`, `y`, `keys`,
`moving`, `rotation` (as `facing`, see the header comment), a flag for
`player.mesh.dispose()` having been called (lava death), the entity
collections, and the spawn/exit cells.  Meshes are render-only and
dropped; each map keyed by `keyOf(x, y)` becomes a `Finset`/assoc list
over the cell. -/
structure Game where
  W : Nat
  H : Nat
  playerX : Int
  playerY : Int
  playerKeys : Nat
  playerMoving : Bool
  facing : Fin 4
  playerDisposed : Bool
  blocked : Finset (Int × Int)
  doors : Finset (Int × Int)
  autoDoors : Finset (Int × Int)
  boxes : Finset (Int × Int)
  keys : Finset (Int × Int)
  lava : Finset (Int × Int)
  buttons : List ((Int × Int) × GameButton)
  spawnCell : Int × Int
  exitCell : Int × Int
deriving DecidableEq

namespace Game

/-- Source `inBounds(i, j)`: `i >= 0 && j >= 0 && i < this.W && j < this.H`. -/
def inBounds (g : Game) (i j : Int) : Bool :=
  0 ≤ i && 0 ≤ j && i < (g.W : Int) && j < (g.H : Int)

/-- Source `isBlocked(i, j)`: `this.blocked.has(keyOf(i, j))`. -/
def isBlocked (g : Game) (i j : Int) : Bool :=
  decide ((i, j) ∈ g.blocked)

/-- The grid-aligned forward offset
`(Math.round(Math.cos(rotation)), Math.round(Math.sin(rotation)))`
computed by `movePlayerForwardAsync` and `useAction`, evaluated on the
four reachable rotations `facing · π/2`. -/
def dirOffset (k : Fin 4) : Int × Int :=
  if k = 0 then (1, 0)
  else if k = 1 then (0, 1)
  else if k = 2 then (-1, 0)
  else (0, -1)

/-- Lookup (`Map.get`) on an association list keyed by cells (JS `Map` keys are
unique, and the grid loader inserts each cell at most once). -/
def lookupButton : List ((Int × Int) × GameButton) → Int × Int → Option GameButton
  | [], _ => none
  | (k, b) :: t, c => if k = c then some b else lookupButton t c

/-- Assignment `button.toggled = true` on the object stored in the map: the entry
at the given cell is replaced by its toggled copy. -/
def setButtonToggled (bs : List ((Int × Int) × GameButton)) (c : Int × Int) :
    List ((Int × Int) × GameButton) :=
  bs.map fun kb => if kb.1 = c then (kb.1, { kb.2 with toggled := true }) else kb

/-- The direction test of `useAction`:
`playerDirection = (-rotation + 2π) mod 2π`,
`buttonDirection = (direction + 5π/2) mod 2π`, matching when the two
differ by less than `0.1` (or by more than `2π - 0.1`).  On the
quarter-turn lattice both sides are multiples of `π/2`, distinct
multiples differ by at least `π/2 > 0.1`, so the threshold comparison
is exact equality of `((4 - facing) mod 4)` with `((dir + 1) mod 4)`
(`5π/2 mod 2π = π/2`). -/
def buttonDirectionMatch (facing dir : Fin 4) : Bool :=
  (4 - facing.val) % 4 = (dir.val + 1) % 4

/-- Source `handlePlayerLanded()` (src/game.ts): key pickup (erase the key,
increment `player.keys`), then the lava check (`player.mesh.dispose()`
and the string result), then the exit check (`triggerWinAnimation()`,
which sets `player.moving = true` and resolves with the win string). -/
def handlePlayerLanded (g : Game) : Game × Option String :=
  let pk := (g.playerX, g.playerY)
  let g1 :=
    if pk ∈ g.keys then
      { g with keys := g.keys.erase pk, playerKeys := g.playerKeys + 1 }
    else g
  if pk ∈ g1.lava then
    ({ g1 with playerDisposed := true }, some "You fell in lava.")
  else if g1.playerX = g1.exitCell.1 ∧ g1.playerY = g1.exitCell.2 then
    ({ g1 with playerMoving := true }, some "🎉 You win! Good job. 🎉")
  else (g1, none)

/-- Source `movePlayerAsync(nx, ny)` (src/game.ts): sets `moving`, tweens the
mesh, assigns `player.x/y`, clears `moving`, then awaits
`handlePlayerLanded()`.  Its return type is `Promise<void>`: the string
that `handlePlayerLanded` resolves with is discarded here. -/
def movePlayerAsync (g : Game) (nx ny : Int) : Game :=
  (handlePlayerLanded { g with playerX := nx, playerY := ny, playerMoving := false }).1

/-- The box-pushing block of `attemptMoveAsync` (src/game.ts lines
397-439).  `none` models the early `return "Can't push box"`; otherwise
the box (if any) at the destination is deleted from `boxes`/`blocked`
and either consumed by lava (both entries deleted) or re-inserted one
cell further. -/
def resolveBoxPush (g : Game) (dx dy nx ny : Int) : Option Game :=
  if (nx, ny) ∈ g.boxes then
    let bx := nx + dx
    let by2 := ny + dy
    if !g.inBounds bx by2 || g.isBlocked bx by2 then none
    else
      let g1 := { g with boxes := g.boxes.erase (nx, ny),
                         blocked := g.blocked.erase (nx, ny) }
      if (bx, by2) ∈ g1.lava then
        some { g1 with lava := g1.lava.erase (bx, by2) }
      else
        some { g1 with boxes := insert (bx, by2) g1.boxes,
                       blocked := insert (bx, by2) g1.blocked }
  else some g

/-- Source `attemptMoveAsync(dx, dy)` (src/game.ts): bounds check, closed-door
check, box pushing, the final blocked check, then the actual move.  The
successful path `await this.movePlayerAsync(nx, ny)` produces no return
value, hence `none`. -/
def attemptMoveAsync (g : Game) (dx dy : Int) : Game × Option String :=
  let nx := g.playerX + dx
  let ny := g.playerY + dy
  if !g.inBounds nx ny then (g, some "You can't go there")
  else if (nx, ny) ∈ g.doors then (g, some "Press T to open the door!")
  else
    match g.resolveBoxPush dx dy nx ny with
    | none => (g, some "Can't push box")
    | some g2 =>
      if g2.isBlocked nx ny then (g2, some "You can't go there")
      else (g2.movePlayerAsync nx ny, none)

/-- Source `moveForward()` (src/game.ts): rejected while `player.moving`
(returning `undefined`), else `movePlayerForwardAsync()`, which rounds
the rotation to a grid offset and calls `attemptMoveAsync`. -/
def moveForward (g : Game) : Game × Option String :=
  if g.playerMoving then (g, none)
  else
    let d := dirOffset g.facing
    g.attemptMoveAsync d.1 d.2

/-- Source `turnLeft()` (src/game.ts): rejected while `player.moving`; else
`rotatePlayerAsync(π/2)` tweens the rotation, normalises it into
`[0, 2π)` and clears `moving`; the net state change is a quarter turn. -/
def turnLeft (g : Game) : Game :=
  if g.playerMoving then g else { g with facing := g.facing + 1 }

/-- Source `turnRight()` (src/game.ts): as `turnLeft`, with
`rotatePlayerAsync(-π/2)`; `-π/2` normalises to `3π/2`. -/
def turnRight (g : Game) : Game :=
  if g.playerMoving then g else { g with facing := g.facing + 3 }

/-- Source `useAction()` (src/game.ts): the button interaction on the current
cell if one is there (direction check, toggling), otherwise the door
interaction on the cell directly ahead (key consumption, deleting the
door from `doors` and `blocked`).  It performs no `moving` check. -/
def useAction (g : Game) : Game × String :=
  let ck := (g.playerX, g.playerY)
  match lookupButton g.buttons ck with
  | some button =>
    if buttonDirectionMatch g.facing button.direction && !button.toggled then
      ({ g with buttons := setButtonToggled g.buttons ck }, "Button activated!")
    else if button.toggled then
      (g, "Button already activated.")
    else
      (g, "You need to face the button to activate it.")
  | none =>
    let d := dirOffset g.facing
    let t := (g.playerX + d.1, g.playerY + d.2)
    if t ∈ g.doors then
      if g.playerKeys > 0 then
        ({ g with playerKeys := g.playerKeys - 1,
                  doors := g.doors.erase t,
                  blocked := g.blocked.erase t }, "Door opened!")
      else
        (g, "You need a key to open this door!")
    else
      (g, "There's nothing to use here.")

/-- The destination cell of a `step` command: the player's cell plus
the rounded forward offset (`movePlayerForwardAsync`). -/
def stepDest (g : Game) : Int × Int :=
  (g.playerX + (dirOffset g.facing).1, g.playerY + (dirOffset g.facing).2)

end Game

/-! ## Level loading

`parts/map.ts` (`initMap`) walks the character grid row by row
(`j` outer, `i` inner) and populates the collections: `#` walls block;
`B` boxes (`createBox`, parts/units/box.ts) insert into `boxes` and
`blocked`; `D`/`d` doors (`createDoor`, parts/units/door.ts) insert
into `doors` and `blocked`; `A`/`a` auto-doors into `autoDoors` and
`blocked`; `K` keys into `keys`; `~` lava into `lava`; `T`/`t`/`Y`/`y`
buttons into `buttons`; `E`/`S` record the exit/spawn cell (the last
occurrence wins).  If either spawn or exit is missing, `initMap` throws
`"Map must include S (spawn) and E (exit)."`.  Insertion order is
irrelevant to the resulting sets, so each collection is defined as the
set of in-range cells whose character qualifies. -/

/-- Access `MAP[j][i]` (always accessed in range by the loader's loop). -/
def chAt (MAP : List String) (i j : Nat) : Char :=
  ((MAP.getD j "").toList).getD i ' '

/-- Characters that insert the cell into `blocked` in `initMap`. -/
def blockedChar (c : Char) : Bool :=
  c = '#' || c = 'B' || c = 'D' || c = 'd' || c = 'A' || c = 'a'

/-- The set of in-range cells whose map character satisfies `p`. -/
def cellsWith (MAP : List String) (p : Char → Bool) : Finset (Int × Int) :=
  ((Finset.Icc (0 : Int) ((MAP.headD "").length - 1)) ×ˢ
    (Finset.Icc (0 : Int) ((MAP.length : Int) - 1))).filter
    fun q => p (chAt MAP q.1.toNat q.2.toNat)

/-- The `j` outer / `i` inner scan of `initMap`, keeping the last cell
holding character `c` (each `case "E"`/`case "S"` overwrites). -/
def findCellLast (MAP : List String) (c : Char) : Option (Int × Int) :=
  (List.range MAP.length).foldl
    (fun acc j =>
      (List.range (MAP.headD "").length).foldl
        (fun acc2 i => if chAt MAP i j = c then some ((i : Int), (j : Int)) else acc2)
        acc)
    none

/-- Source `createButton` (parts/units/ground.ts): an untoggled button
whose stored `direction` is `0` for `T`, `Math.PI` for `t`,
`Math.PI / 2` for `Y` and `3 * Math.PI / 2` for `y`, recorded here in
quarter turns (`0`/`2`/`1`/`3`). -/
def buttonChar : Char → Option (Fin 4)
  | 'T' => some 0
  | 't' => some 2
  | 'Y' => some 1
  | 'y' => some 3
  | _ => none

/-- The buttons map built by the loader's scan. -/
def levelButtons (MAP : List String) : List ((Int × Int) × GameButton) :=
  (List.range MAP.length).flatMap fun j =>
    (List.range (MAP.headD "").length).filterMap fun i =>
      (buttonChar (chAt MAP i j)).map fun d =>
        (((i : Int), (j : Int)), { direction := d, toggled := false })

/-- The session construction driven by a `level` command: the
`GridPuzzle3D` constructor sets `W`/`H` from the grid, `initMap`
populates the collections and yields the spawn/exit cells (throwing if
one is missing), and `loadPlayer` places the player at the spawn with
`keys = 0`, `moving = false` and `rotation = 0` (facing right). -/
def loadLevel (MAP : List String) : Except String Game :=
  match findCellLast MAP 'S', findCellLast MAP 'E' with
  | some spawn, some exitc =>
    .ok { W := (MAP.headD "").length
          H := MAP.length
          playerX := spawn.1
          playerY := spawn.2
          playerKeys := 0
          playerMoving := false
          facing := 0
          playerDisposed := false
          blocked := cellsWith MAP blockedChar
          doors := cellsWith MAP fun c => c = 'D' || c = 'd'
          autoDoors := cellsWith MAP fun c => c = 'A' || c = 'a'
          boxes := cellsWith MAP fun c => c = 'B'
          keys := cellsWith MAP fun c => c = 'K'
          lava := cellsWith MAP fun c => c = '~'
          buttons := levelButtons MAP
          spawnCell := spawn
          exitCell := exitc }
  | _, _ => .error "Map must include S (spawn) and E (exit)."

/-! ## The console command surface over the controller

The worker primitives `step`, `left`, `right`, `toggle` reach the
controller's `moveForward`, `turnLeft`, `turnRight`, `useAction`. -/

/-- An abstract game command of the console. -/
inductive Cmd
  | step
  | left
  | right
  | toggle
deriving DecidableEq

/-- Running one command against the controller state. -/
def applyCmd (g : Game) : Cmd → Game
  | .step => g.moveForward.1
  | .left => g.turnLeft
  | .right => g.turnRight
  | .toggle => g.useAction.1

/-- Running a command sequence. -/
def applyCmds (g : Game) (cs : List Cmd) : Game :=
  cs.foldl applyCmd g

/-! ## Concrete example states used by witnesses and counterexamples -/

/-- A minimal winnable level: spawn at `(1, 1)`, exit at `(2, 1)`
directly to the player's right (the initial facing). -/
def winMAP : List String := ["####", "#SE#", "####"]

/-- The session `loadLevel winMAP` constructs. -/
def g0win : Game :=
  { W := 4
    H := 3
    playerX := 1
    playerY := 1
    playerKeys := 0
    playerMoving := false
    facing := 0
    playerDisposed := false
    blocked := cellsWith winMAP blockedChar
    doors := cellsWith winMAP fun c => c = 'D' || c = 'd'
    autoDoors := cellsWith winMAP fun c => c = 'A' || c = 'a'
    boxes := cellsWith winMAP fun c => c = 'B'
    keys := cellsWith winMAP fun c => c = 'K'
    lava := cellsWith winMAP fun c => c = '~'
    buttons := levelButtons winMAP
    spawnCell := (1, 1)
    exitCell := (2, 1) }

/-- A state whose box at `(1, 1)`, lava at `(2, 1)` and player at
`(0, 1)` facing right line up as in the box-push-into-lava claim, but
whose `moving` flag is still set (e.g. sampled while an animation is in
flight): every command is rejected, so nothing is consumed. -/
def c5cex : Game :=
  { W := 5
    H := 3
    playerX := 0
    playerY := 1
    playerKeys := 0
    playerMoving := true
    facing := 0
    playerDisposed := false
    blocked := {(1, 1)}
    doors := ∅
    autoDoors := ∅
    boxes := {(1, 1)}
    keys := ∅
    lava := {(2, 1)}
    buttons := []
    spawnCell := (0, 1)
    exitCell := (4, 1) }

/-- An idle state facing a closed door at `(2, 1)` with no button on
the player's cell and no key held. -/
def doorCex : Game :=
  { W := 4
    H := 3
    playerX := 1
    playerY := 1
    playerKeys := 0
    playerMoving := false
    facing := 0
    playerDisposed := false
    blocked := {(2, 1)}
    doors := {(2, 1)}
    autoDoors := ∅
    boxes := ∅
    keys := ∅
    lava := ∅
    buttons := []
    spawnCell := (1, 1)
    exitCell := (3, 1) }

/-! ## JSON values and the host `JSON.stringify` / `JSON.parse`

The dispatcher publishes `JSON.stringify(methodResult ?? null)` and the
worker runs `JSON.parse` on the decoded text.  JS strings are sequences
of UTF-16 code units, so both the JSON text and embedded string values
are modelled as `List Nat` of code units.  Numbers are restricted to
integers (the command results of this program are strings or `null`;
IEEE-754 doubles are floating point and out of scope). -/

/-- A JSON-serialisable value.  Object fields are kept in their
insertion order, as `JSON.stringify`/`JSON.parse` do for the
non-integer-like keys occurring here. -/
inductive JVal where
  | jnull
  | jbool (b : Bool)
  | jnum (n : Int)
  | jstr (s : List Nat)
  | jarr (xs : List JVal)
  | jobj (fs : List (List Nat × JVal))

/-- Digit extraction with an explicit fuel bound (structural, so that
it reduces inside the kernel); `fuel > n` is always enough since the
argument shrinks by a factor of ten per step. -/
def natToCUAux : Nat → Nat → List Nat → List Nat
  | 0, _, acc => acc
  | fuel + 1, n, acc =>
    if n < 10 then (48 + n) :: acc
    else natToCUAux fuel (n / 10) ((48 + n % 10) :: acc)

/-- Decimal digits of a natural number, most significant first
(`String(n)` for a non-negative integer). -/
def natToCU (n : Nat) : List Nat :=
  natToCUAux (n + 1) n []

/-- Conversion `String(n)` for an integer: optional minus sign, then digits. -/
def intToCU (n : Int) : List Nat :=
  if n < 0 then 45 :: natToCU (-n).toNat else natToCU n.toNat

/-- Lowercase hex digit, as emitted inside `\u00..` escapes. -/
def hexDigit (n : Nat) : Nat :=
  if n < 10 then 48 + n else 87 + n

/-- The escaping `JSON.stringify` applies to one code unit of a string:
quote and backslash are escaped, the control characters `\b \t \n \f \r`
use their short escapes, the remaining code units below `0x20` become
`\u00XX`, everything else is emitted as-is. -/
def escapeCU (c : Nat) : List Nat :=
  if c = 34 then [92, 34]
  else if c = 92 then [92, 92]
  else if c = 8 then [92, 98]
  else if c = 9 then [92, 116]
  else if c = 10 then [92, 110]
  else if c = 12 then [92, 102]
  else if c = 13 then [92, 114]
  else if c < 32 then [92, 117, 48, 48, hexDigit (c / 16), hexDigit (c % 16)]
  else [c]

/-- A quoted JSON string literal. -/
def quoteStr (s : List Nat) : List Nat :=
  34 :: (s.flatMap escapeCU ++ [34])

mutual

/-- Encoding (`JSON.stringify`) on the modelled value domain. -/
def stringify : JVal → List Nat
  | .jnull => [110, 117, 108, 108]
  | .jbool true => [116, 114, 117, 101]
  | .jbool false => [102, 97, 108, 115, 101]
  | .jnum n => intToCU n
  | .jstr s => quoteStr s
  | .jarr [] => [91, 93]
  | .jarr (x :: xs) => 91 :: (stringify x ++ (stringifyElems xs ++ [93]))
  | .jobj [] => [123, 125]
  | .jobj (f :: fs) =>
    123 :: (quoteStr f.1 ++ (58 :: (stringify f.2 ++ (stringifyFields fs ++ [125]))))

/-- The `,`-separated tail elements of a non-empty array. -/
def stringifyElems : List JVal → List Nat
  | [] => []
  | x :: xs => 44 :: (stringify x ++ stringifyElems xs)

/-- The `,`-separated tail fields of a non-empty object. -/
def stringifyFields : List (List Nat × JVal) → List Nat
  | [] => []
  | f :: fs => 44 :: (quoteStr f.1 ++ (58 :: (stringify f.2 ++ stringifyFields fs)))

end

/-- JSON whitespace. -/
def isWsCU (c : Nat) : Bool :=
  c = 32 || c = 9 || c = 10 || c = 13

/-- Skip leading whitespace. -/
def skipWs : List Nat → List Nat
  | [] => []
  | c :: r => if isWsCU c then skipWs r else c :: r

/-- ASCII decimal digit. -/
def isDigitCU (c : Nat) : Bool :=
  48 ≤ c && c ≤ 57

/-- Hex digit value (both cases accepted, as in `JSON.parse`). -/
def hexVal (c : Nat) : Option Nat :=
  if 48 ≤ c ∧ c ≤ 57 then some (c - 48)
  else if 97 ≤ c ∧ c ≤ 102 then some (c - 87)
  else if 65 ≤ c ∧ c ≤ 70 then some (c - 55)
  else none

/-- The single-character JSON escapes. -/
def escDecode (c : Nat) : Option Nat :=
  if c = 34 then some 34
  else if c = 92 then some 92
  else if c = 47 then some 47
  else if c = 98 then some 8
  else if c = 116 then some 9
  else if c = 110 then some 10
  else if c = 102 then some 12
  else if c = 114 then some 13
  else none

/-- Parse a JSON string body (the opening quote already consumed),
returning the decoded code units and the remaining input.  The fuel
argument keeps the recursion structural; every step consumes at least
one code unit, so any fuel beyond the input length is enough (callers
pass the input length plus one). -/
def parseStr : Nat → List Nat → Option (List Nat × List Nat)
  | 0, _ => none
  | _ + 1, [] => none
  | fuel + 1, c :: r =>
    if c = 34 then some ([], r)
    else if c = 92 then
      match r with
      | [] => none
      | e :: r2 =>
        if e = 117 then
          match r2 with
          | a :: b :: c2 :: d :: r3 =>
            match hexVal a, hexVal b, hexVal c2, hexVal d with
            | some ha, some hb, some hc, some hd =>
              (parseStr fuel r3).map fun p =>
                ((ha * 4096 + hb * 256 + hc * 16 + hd) :: p.1, p.2)
            | _, _, _, _ => none
          | _ => none
        else
          match escDecode e with
          | some u => (parseStr fuel r2).map fun p => (u :: p.1, p.2)
          | none => none
    else (parseStr fuel r).map fun p => (c :: p.1, p.2)

/-- Consume a maximal digit run, folding it onto `acc`. -/
def parseDigits : List Nat → Nat → Nat × List Nat
  | c :: r, acc => if isDigitCU c then parseDigits r (acc * 10 + (c - 48)) else (acc, c :: r)
  | [], acc => (acc, [])

/-- Parse an integer JSON number: optional minus sign, then at least
one digit. -/
def parseNum : List Nat → Option (Int × List Nat)
  | [] => none
  | c :: r =>
    if c = 45 then
      match r with
      | [] => none
      | d :: _ =>
        if isDigitCU d then
          let p := parseDigits r 0
          some (-(p.1 : Int), p.2)
        else none
    else if isDigitCU c then
      let p := parseDigits (c :: r) 0
      some ((p.1 : Int), p.2)
    else none

mutual

/-- Recursive-descent JSON value parsing (`JSON.parse`).  The fuel
argument bounds the recursion depth; every recursive call strictly
consumes input first, so any fuel beyond the input length is enough. -/
def parseVal : Nat → List Nat → Option (JVal × List Nat)
  | 0, _ => none
  | fuel + 1, input =>
    match skipWs input with
    | [] => none
    | c :: r =>
      if c = 110 then
        match r with
        | 117 :: 108 :: 108 :: r2 => some (.jnull, r2)
        | _ => none
      else if c = 116 then
        match r with
        | 114 :: 117 :: 101 :: r2 => some (.jbool true, r2)
        | _ => none
      else if c = 102 then
        match r with
        | 97 :: 108 :: 115 :: 101 :: r2 => some (.jbool false, r2)
        | _ => none
      else if c = 34 then
        (parseStr (r.length + 1) r).map fun p => (.jstr p.1, p.2)
      else if c = 91 then
        match skipWs r with
        | 93 :: r2 => some (.jarr [], r2)
        | r1 => (parseElems fuel r1).map fun p => (.jarr p.1, p.2)
      else if c = 123 then
        match skipWs r with
        | 125 :: r2 => some (.jobj [], r2)
        | r1 => (parseFields fuel r1).map fun p => (.jobj p.1, p.2)
      else
        (parseNum (c :: r)).map fun p => (.jnum p.1, p.2)

/-- The elements of a non-empty array, up to and including `]`. -/
def parseElems : Nat → List Nat → Option (List JVal × List Nat)
  | 0, _ => none
  | fuel + 1, input =>
    match parseVal fuel input with
    | none => none
    | some (v, r) =>
      match skipWs r with
      | 44 :: r2 => (parseElems fuel r2).map fun p => (v :: p.1, p.2)
      | 93 :: r2 => some ([v], r2)
      | _ => none

/-- The fields of a non-empty object, up to and including the closing
brace. -/
def parseFields : Nat → List Nat → Option (List (List Nat × JVal) × List Nat)
  | 0, _ => none
  | fuel + 1, input =>
    match skipWs input with
    | 34 :: r =>
      match parseStr (r.length + 1) r with
      | none => none
      | some (k, r1) =>
        match skipWs r1 with
        | 58 :: r2 =>
          match parseVal fuel r2 with
          | none => none
          | some (v, r3) =>
            match skipWs r3 with
            | 44 :: r4 => (parseFields fuel r4).map fun p => ((k, v) :: p.1, p.2)
            | 125 :: r4 => some ([(k, v)], r4)
            | _ => none
        | _ => none
    | _ => none

end

/-- Top-level `JSON.parse`: parse one value and require only whitespace after
it. -/
def parseJson (s : List Nat) : Option JVal :=
  match parseVal (s.length + 1) s with
  | some (v, rest) => if skipWs rest = [] then some v else none
  | none => none

mutual

/-- Fuel needed by `parseVal` on `stringify v`: one unit per
parser-function call. -/
def jcost : JVal → Nat
  | .jnull | .jbool _ | .jnum _ | .jstr _ => 1
  | .jarr xs => 1 + elemsCost xs
  | .jobj fs => 1 + fieldsCost fs

/-- Fuel needed by `parseElems`. -/
def elemsCost : List JVal → Nat
  | [] => 0
  | x :: xs => 1 + jcost x + elemsCost xs

/-- Fuel needed by `parseFields`. -/
def fieldsCost : List (List Nat × JVal) → Nat
  | [] => 0
  | f :: fs => 1 + jcost f.2 + fieldsCost fs

end

/-- Non-digit lookahead: parsing a number followed by this input
cannot overrun into it. -/
def delimOk : List Nat → Bool
  | [] => true
  | c :: _ => !isDigitCU c

/-! ## The shared channel and the dispatcher -/

/-- The UTF-16 code units of a string (`charCodeAt` over each index):
code points beyond the BMP become a surrogate pair. -/
def utf16Encode (s : String) : List Nat :=
  s.data.flatMap fun ch =>
    let n := ch.toNat
    if n < 65536 then [n]
    else [55296 + (n - 65536) / 1024, 56320 + (n - 65536) % 1024]

/-- The payload capacity of the shared buffer:
`new SharedArrayBuffer(1024 * 4)` viewed as an `Int32Array` has 1024
cells; cell 0 is the ready flag, cell 1 the length, cells 2..1023 the
payload. -/
def CAPACITY : Nat := 1022

/-- The shared `Int32Array`: cell 0 (ready flag), cell 1 (payload
length in code units) and the 1022 payload cells. -/
structure Chan where
  ready : Nat
  len : Nat
  data : List Nat
deriving DecidableEq

/-- Overwrite a prefix of the payload cells (`Atomics.store` at
`2 + i` for `i < msg.length`); the cells beyond are left as they
were. -/
def writePayload (cells msg : List Nat) : List Nat :=
  msg ++ cells.drop msg.length

/-- The publishing tail of `handleSyncGameMethod`: store the length at
cell 1, the code units from cell 2 on, and finally the ready flag
(with `Atomics.notify`).  A store at an index past the buffer throws a
`RangeError` after the length and the first 1022 code units have been
stored, so the flag is never set in that case. -/
def publishResult (ch : Chan) (msg : List Nat) : Option String × Chan :=
  if msg.length ≤ CAPACITY then
    (none, { ready := 1, len := msg.length, data := writePayload ch.data msg })
  else
    (some "RangeError",
     { ch with len := msg.length, data := writePayload ch.data (msg.take CAPACITY) })

/-- Worker receive path of `callGameMethodSync`: busy-wait until cell 0 reads
1 (`none` models the spin never returning), then read the length, the
code units, and `JSON.parse` the text. -/
def awaitResult (ch : Chan) : Option JVal :=
  if ch.ready = 1 then parseJson (ch.data.take ch.len) else none

/-- The method names of the bridge. -/
inductive Method
  | step
  | left
  | right
  | toggle
  | safe
  | level
  | restart
deriving DecidableEq

/-- The `PythonREPL` state that `handleSyncGameMethod` reads and
writes: the persisted level name (`localStorage['level']`, via the
`level` getter/setter), the current `gameController`, and whether
`dispose()` has been called on that controller without it having been
replaced (which happens only on the throwing paths of a `level`
command that reach the dispose before the construction throws). -/
structure ReplState where
  levelName : Option String
  gameController : Option Game
  controllerDisposed : Bool
deriving DecidableEq

/-- One character of a row overwritten:
`s.substring(0, i) + c + s.substring(i + 1)`. -/
def setRowCh (s : String) (i : Nat) (c : Char) : String :=
  String.mk (s.toList.take i ++ c :: s.toList.drop (i + 1))

/-- Assignment
`MAP[r] = MAP[r].substring(0, c) + d + MAP[r].substring(c + 1)` of the
level generators. -/
def setMapCh (m : List String) (r c : Nat) (d : Char) : List String :=
  m.set r (setRowCh (m.getD r "") c d)

/-- The digit-path loop shared by the `random` and `integration`
generators (src/src/Player.ts): nine iterations move an index from
`[MAP.length - 2, 2]` up or right and stamp the digits `1`..`9` along
the way.  Reaching `stopRow` forces the direction right, reaching
column `MAP[0].length - 2` forces it up, and otherwise the direction
comes from a `Math.random() < 0.5` draw — the draws are supplied as
the stream `rand` (`rand k` is whether the `k`-th draw of the call is
below one half, which picks up). -/
def digitWalk (stopRow : Nat) (m0 : List String) (rand : Nat → Bool) :
    List String :=
  (((List.range 9).map fun t => t + 1).foldl
    (fun s d =>
      let m := s.1.1
      let i := s.1.2.1
      let j := s.1.2.2
      let k := s.2
      if i = stopRow then
        ((setMapCh m i (j + 1) (Char.ofNat (48 + d)), i, j + 1), k)
      else if j = (m.headD "").length - 2 then
        ((setMapCh m (i - 1) j (Char.ofNat (48 + d)), i - 1, j), k)
      else if rand k then
        ((setMapCh m (i - 1) j (Char.ofNat (48 + d)), i - 1, j), k + 1)
      else
        ((setMapCh m i (j + 1) (Char.ofNat (48 + d)), i, j + 1), k + 1))
    ((m0, m0.length - 2, 2), 0)).1.1

/-- Source registry `levels` (src/src/Player.ts; the `'./basics'`
module that src/src/python-repl.ts imports): eight level generators,
each yielding a character grid `data.MAP`.  The optional `TIME_MS`
only feeds the session's timer and is not part of the embedded state;
the `random` and `integration` generators consume `Math.random()`
draws, supplied as the stream argument. -/
def levels : List (String × ((Nat → Bool) → List String)) :=
  [("intro", fun _ =>
     ["##########",
      "#S.B.~..E#",
      "##########"]),
   ("speed", fun _ =>
     ["######",
      "###Sy#",
      "#Ea..#",
      "######"]),
   ("box", fun _ =>
     ["##########",
      "#S....~.E#",
      "#.#.#B####",
      "#.#......#",
      "##########"]),
   ("keys", fun _ =>
     ["########",
      "#S..~.E#",
      "#.#B####",
      "#.d.#K.#",
      "#.####.#",
      "#......#",
      "########"]),
   ("auto", fun _ =>
     ["########",
      "#S..~.E#",
      "#.#B####",
      "#.d.#K.#",
      "#y####.#",
      "#.a....#",
      "########"]),
   ("lava", fun _ =>
     ["###############",
      "#St123456789.E#",
      "###############"]),
   ("random", fun rand =>
     digitWalk 1
       ["##########",
        "#~~~~~~~E#",
        "#~~~~~~~~#",
        "#~~~~~~~~#",
        "#~~~~~~~~#",
        "#St~~~~~~#",
        "##########"] rand),
   ("integration", fun rand =>
     digitWalk 7
       ["##########",
        "#......a.#",
        "#.######y#",
        "#.K#...d.#",
        "####B###.#",
        "#E.~.....#",
        "#~~~~~~~.#",
        "#~~~~~~~.#",
        "#~~~~~~~~#",
        "#~~~~~~~~#",
        "#~~~~~~~~#",
        "#St~~~~~~#",
        "##########"] rand)]

/-- The own-entry part of the property access `levels[l]` on the
registry object: `some` exactly when the name is one of the
registry's own keys.  The access also reaches the inherited members
of `Object.prototype`; those are listed in `objectProtoKeys` and
handled by the dispatcher separately. -/
def lookupLevel : List (String × ((Nat → Bool) → List String)) → String →
    Option ((Nat → Bool) → List String)
  | [], _ => none
  | (k, v) :: t, name => if k = name then some v else lookupLevel t name

/-- Own property names of `Object.prototype`: the registry is a plain
object literal, so `levels[l]` falls back to these inherited members
when `l` names no own entry.  Every one of them is truthy (a
function, or `Object.prototype` itself for the `__proto__` accessor),
so such an `l` passes the `!level` test and enters the load
branch. -/
def objectProtoKeys : List String :=
  ["constructor", "hasOwnProperty", "isPrototypeOf",
   "propertyIsEnumerable", "toLocaleString", "toString", "valueOf",
   "__defineGetter__", "__defineSetter__", "__lookupGetter__",
   "__lookupSetter__", "__proto__"]

/-- The inherited members for which the call `level()` returns
normally with `this` undefined — `toString` yields the string
`"[object Undefined]"`, `constructor` (the `Object` function) a fresh
empty object, `isPrototypeOf` `false` (its argument, `undefined`, is
not an object) — so the handler reaches the dispose of the current
controller and then throws a `TypeError` constructing `GridPuzzle3D`
on the `undefined` `data.MAP`.  Every other inherited member throws a
`TypeError` already at the call `level()` (the `ToObject` coercion of
the undefined `this`, or, for the `__proto__` accessor's value
`Object.prototype`, a call of a non-function), before the dispose. -/
def protoCallReturns : List String :=
  ["constructor", "isPrototypeOf", "toString"]

/-- Value of `Object.keys('levels')`: the argument is the string literal
`'levels'` (not the registry object), whose keys are the index strings
of its six characters. -/
def objectKeysOfStringLevels : List String :=
  ["0", "1", "2", "3", "4", "5"]

/-- JSON-encode a result value and publish it
(`JSON.stringify(methodResult ?? null)` followed by the three stores).
A `RangeError` thrown by an out-of-range store propagates; the REPL
state mutations made before the publishing tail are kept either
way. -/
def publishValue (st : ReplState) (v : JVal) (ch : Chan) :
    Except String Unit × ReplState × Chan :=
  match publishResult ch (stringify v) with
  | (none, ch2) => (.ok (), st, ch2)
  | (some e, ch2) => (.error e, st, ch2)

/-- Dispatcher `PythonREPL.handleSyncGameMethod(method, args)`
(src/python-repl.ts lines 103-154).  `restart` is rewritten to
`level` with the persisted name.  `level` resolves the `"$"` sentinel
(with `Object.keys('levels')[0]` as the fallback) and answers
`'Please select a level first'` for a non-string name; otherwise the
property access `levels[l]` resolves the name.  A falsy access — the
name is no own registry key and no inherited `Object.prototype`
member (or is the falsy empty string, which short-circuits `l &&
levels[l]` and names neither) — answers `'Unknown Level'`.  A truthy
access enters the load branch, which persists the name first.  For an
own registry entry the current controller (if any) is disposed and a
fresh session is constructed; `initMap` throws
`"Map must include S (spawn) and E (exit)."` out of the awaited
initialization on a grid missing either cell — unreachable for this
registry, whose every generated grid holds both (`levels_load_ok`
samples this); as the half-built session of that dead branch never
acquires a player record it is not representable in `Game`, and the
model keeps the previous controller reference there.  For an
inherited `Object.prototype` member the handler throws a `TypeError`:
after disposing the current controller when the member's call
returns (`protoCallReturns`), and already at the call — before any
dispose — otherwise.  Other methods answer
`'Please select a level, ex basic'` without a controller, and
otherwise publish the outcome of `await this.gameController.run(method)`
— `GridPuzzle3D.run` is only referenced here and absent from the
sources, so its outcome (a result value, or a rejection that
propagates) is the parameter `run`.  Returns the handler's outcome
(`.error` = an exception propagated; nothing was published), the
`PythonREPL` state afterwards (mutations made before a throw are
kept) and the channel afterwards. -/
def handleSyncGameMethod (st : ReplState) (method : Method)
    (args : List (Option String)) (rand : Nat → Bool)
    (run : Except String (Option JVal)) (ch : Chan) :
    Except String Unit × ReplState × Chan :=
  let ma : Method × List (Option String) :=
    if method = .restart then (.level, [st.levelName]) else (method, args)
  if ma.1 = .level then
    let l0 : Option String := ma.2.headD none
    let l : Option String :=
      if l0 = some "$" then some (st.levelName.getD (objectKeysOfStringLevels.headD ""))
      else l0
    match l with
    | none => publishValue st (.jstr (utf16Encode "Please select a level first")) ch
    | some name =>
      match lookupLevel levels name with
      | some gen =>
        match loadLevel (gen rand) with
        | .error e =>
          (.error e,
           { st with levelName := some name,
                     controllerDisposed := st.gameController.isSome }, ch)
        | .ok game =>
          publishValue
            { levelName := some name, gameController := some game,
              controllerDisposed := false }
            (.jstr (utf16Encode "$$")) ch
      | none =>
        if name ∈ objectProtoKeys then
          if name ∈ protoCallReturns then
            (.error "TypeError",
             { st with levelName := some name,
                       controllerDisposed := st.gameController.isSome }, ch)
          else
            (.error "TypeError", { st with levelName := some name }, ch)
        else
          publishValue st (.jstr (utf16Encode "Unknown Level")) ch
  else
    match st.gameController with
    | none => publishValue st (.jstr (utf16Encode "Please select a level, ex basic")) ch
    | some _ =>
      match run with
      | .error e => (.error e, st, ch)
      | .ok v => publishValue st (v.getD .jnull) ch

/-- A fresh channel: `SharedArrayBuffer` memory is zero-initialised. -/
def chan0 : Chan :=
  { ready := 0, len := 0, data := List.replicate CAPACITY 0 }

/-- A fresh REPL state: nothing persisted, no controller. -/
def repl0 : ReplState :=
  { levelName := none, gameController := none, controllerDisposed := false }

/-- A REPL state holding a live session. -/
def replWin : ReplState :=
  { levelName := some "w", gameController := some g0win,
    controllerDisposed := false }

/-- A small example value for the round-trip witness. -/
def exVal : JVal :=
  .jarr [.jnum (-42), .jstr (utf16Encode "ok"), .jobj [(utf16Encode "k", .jbool true)]]

/-! ## The two-thread protocol on the shared buffer

A small-step model of the interleaving of `callGameMethodSync`
(worker) and the publishing tail of `handleSyncGameMethod` (main
thread).  Each label is one atomic access from the source; the shared
cells are the ready flag (cell 0), the length (cell 1) and the payload
cells. -/

/-- The worker's position inside `callGameMethodSync`. -/
inductive WorkerPC
  | notCalling
  | armed
  | waiting
  | reading
deriving DecidableEq

/-- The main thread's position inside the handler: idle, computing
the result, or between the stores of the publishing tail (carrying
the encoded result being published). -/
inductive MainPC
  | idle
  | computing
  | hasResult (r : List Nat)
  | wroteLen (r : List Nat)
  | wrotePayload (r : List Nat)
deriving DecidableEq

/-- A protocol state: the shared cells plus both threads' positions
and the request message in flight. -/
structure ProtoState where
  flag : Nat
  slen : Nat
  sdata : List Nat
  wpc : WorkerPC
  mpc : MainPC
  reqInFlight : Bool
deriving DecidableEq

/-- The atomic steps, named by source line. -/
inductive PLabel
  | wArm
  | wPost
  | wSpin
  | wObserve
  | wRead
  | mReceive
  | mCompute (r : List Nat)
  | mWriteLen
  | mWritePayload
  | mSetFlag
deriving DecidableEq

/-- Which thread performs a step (`true` = main thread). -/
def labelThread : PLabel → Bool
  | .wArm | .wPost | .wSpin | .wObserve | .wRead => false
  | .mReceive | .mCompute _ | .mWriteLen | .mWritePayload | .mSetFlag => true

/-- The value a step stores into cell 0, if it stores one:
`Atomics.store(sharedData, 0, 0)` when the worker arms, and
`Atomics.store(sharedData, 0, 1)` when the main thread publishes. -/
def flagWrite : PLabel → Option Nat
  | .wArm => some 0
  | .mSetFlag => some 1
  | _ => none

/-- One atomic protocol step.
Worker (`callGameMethodSync`): arm the flag, post the request, spin
on the flag, observe it non-zero, read the result.  Main thread
(`handleSyncGameMethod`): receive the request, compute and JSON-encode
the result (an in-range store sequence requires it to fit), store the
length, store the payload cells, store the ready flag and notify. -/
inductive PStep : PLabel → ProtoState → ProtoState → Prop
  | wArm (s : ProtoState) (h : s.wpc = .notCalling) :
      PStep .wArm s { s with flag := 0, wpc := .armed }
  | wPost (s : ProtoState) (h : s.wpc = .armed) :
      PStep .wPost s { s with wpc := .waiting, reqInFlight := true }
  | wSpin (s : ProtoState) (h : s.wpc = .waiting) (h0 : s.flag = 0) :
      PStep .wSpin s s
  | wObserve (s : ProtoState) (h : s.wpc = .waiting) (h0 : s.flag ≠ 0) :
      PStep .wObserve s { s with wpc := .reading }
  | wRead (s : ProtoState) (h : s.wpc = .reading) :
      PStep .wRead s { s with wpc := .notCalling }
  | mReceive (s : ProtoState) (h : s.mpc = .idle) (hr : s.reqInFlight = true) :
      PStep .mReceive s { s with mpc := .computing, reqInFlight := false }
  | mCompute (s : ProtoState) (r : List Nat) (h : s.mpc = .computing)
      (hlen : r.length ≤ CAPACITY) :
      PStep (.mCompute r) s { s with mpc := .hasResult r }
  | mWriteLen (s : ProtoState) (r : List Nat) (h : s.mpc = .hasResult r) :
      PStep .mWriteLen s { s with slen := r.length, mpc := .wroteLen r }
  | mWritePayload (s : ProtoState) (r : List Nat) (h : s.mpc = .wroteLen r) :
      PStep .mWritePayload s
        { s with sdata := writePayload s.sdata r, mpc := .wrotePayload r }
  | mSetFlag (s : ProtoState) (r : List Nat) (h : s.mpc = .wrotePayload r) :
      PStep .mSetFlag s { s with flag := 1, mpc := .idle }

/-- The initial state: `SharedArrayBuffer` memory is zeroed, both
threads are outside the protocol. -/
def protoInit : ProtoState :=
  { flag := 0, slen := 0, sdata := List.replicate CAPACITY 0,
    wpc := .notCalling, mpc := .idle, reqInFlight := false }

/-- States reachable from the initial state by protocol steps. -/
inductive ProtoReachable : ProtoState → Prop
  | init : ProtoReachable protoInit
  | step {s s' : ProtoState} {l : PLabel}
      (hs : ProtoReachable s) (h : PStep l s s') : ProtoReachable s'

/-- The protocol invariant: the ready flag is binary, the payload
region keeps its size, and the main thread's position records what has
already been stored of the result being published. -/
def ProtoInv (s : ProtoState) : Prop :=
  (s.flag = 0 ∨ s.flag = 1) ∧
  s.sdata.length = CAPACITY ∧
  (∀ r, s.mpc = .hasResult r → r.length ≤ CAPACITY) ∧
  (∀ r, s.mpc = .wroteLen r → r.length ≤ CAPACITY ∧ s.slen = r.length) ∧
  (∀ r, s.mpc = .wrotePayload r →
    r.length ≤ CAPACITY ∧ s.slen = r.length ∧ s.sdata.take r.length = r)

/-! ## The doors/boxes ⊆ blocked invariant -/

/-- Every door cell and every box cell is blocked, and no cell hosts
both a door and a box.  The disjointness conjunct is needed for
preservation: opening a door erases its cell from `blocked`, which is
sound for `boxes ⊆ blocked` only because no box sits on a door cell. -/
def GoodState (g : Game) : Prop :=
  g.doors ⊆ g.blocked ∧ g.boxes ⊆ g.blocked ∧ Disjoint g.doors g.boxes

theorem handlePlayerLanded_doors (g : Game) :
    (g.handlePlayerLanded).1.doors = g.doors := by
  unfold Game.handlePlayerLanded
  dsimp only
  split_ifs <;> rfl

theorem handlePlayerLanded_boxes (g : Game) :
    (g.handlePlayerLanded).1.boxes = g.boxes := by
  unfold Game.handlePlayerLanded
  dsimp only
  split_ifs <;> rfl

theorem handlePlayerLanded_blocked (g : Game) :
    (g.handlePlayerLanded).1.blocked = g.blocked := by
  unfold Game.handlePlayerLanded
  dsimp only
  split_ifs <;> rfl

theorem handlePlayerLanded_playerX (g : Game) :
    (g.handlePlayerLanded).1.playerX = g.playerX := by
  unfold Game.handlePlayerLanded
  dsimp only
  split_ifs <;> rfl

theorem handlePlayerLanded_playerY (g : Game) :
    (g.handlePlayerLanded).1.playerY = g.playerY := by
  unfold Game.handlePlayerLanded
  dsimp only
  split_ifs <;> rfl

theorem handlePlayerLanded_lava (g : Game) :
    (g.handlePlayerLanded).1.lava = g.lava := by
  unfold Game.handlePlayerLanded
  dsimp only
  split_ifs <;> rfl

theorem handlePlayerLanded_playerDisposed (g : Game)
    (hl : (g.playerX, g.playerY) ∉ g.lava) :
    (g.handlePlayerLanded).1.playerDisposed = g.playerDisposed := by
  unfold Game.handlePlayerLanded
  dsimp only
  split_ifs <;> rfl

theorem resolveBoxPush_playerX {g g2 : Game} {dx dy nx ny : Int}
    (h : g.resolveBoxPush dx dy nx ny = some g2) : g2.playerX = g.playerX := by
  unfold Game.resolveBoxPush at h
  dsimp only at h
  split_ifs at h <;>
    first
      | exact Option.noConfusion h
      | (injection h with h2; rw [← h2])

theorem resolveBoxPush_playerY {g g2 : Game} {dx dy nx ny : Int}
    (h : g.resolveBoxPush dx dy nx ny = some g2) : g2.playerY = g.playerY := by
  unfold Game.resolveBoxPush at h
  dsimp only at h
  split_ifs at h <;>
    first
      | exact Option.noConfusion h
      | (injection h with h2; rw [← h2])

theorem stepDest_ne (g : Game) : (g.playerX, g.playerY) ≠ g.stepDest := by
  unfold Game.stepDest Game.dirOffset
  split_ifs <;> simp

theorem movePlayerAsync_playerX (g : Game) (nx ny : Int) :
    (g.movePlayerAsync nx ny).playerX = nx := by
  unfold Game.movePlayerAsync
  rw [handlePlayerLanded_playerX]

theorem movePlayerAsync_playerY (g : Game) (nx ny : Int) :
    (g.movePlayerAsync nx ny).playerY = ny := by
  unfold Game.movePlayerAsync
  rw [handlePlayerLanded_playerY]

theorem resolveBoxPush_good {g g2 : Game} {dx dy nx ny : Int}
    (hg : GoodState g) (hd : (nx, ny) ∉ g.doors)
    (h : g.resolveBoxPush dx dy nx ny = some g2) :
    GoodState g2 ∧ g2.doors = g.doors := by
  obtain ⟨hdb, hbb, hdisj⟩ := hg
  unfold Game.resolveBoxPush at h
  by_cases hb : (nx, ny) ∈ g.boxes
  · rw [if_pos hb] at h
    by_cases hfail : (!g.inBounds (nx + dx) (ny + dy) || g.isBlocked (nx + dx) (ny + dy)) = true
    · rw [if_pos hfail] at h
      exact absurd h (by simp)
    · rw [if_neg hfail] at h
      have hnb : (nx + dx, ny + dy) ∉ g.blocked := by
        have hfail' : g.isBlocked (nx + dx) (ny + dy) = false := by
          rcases Bool.or_eq_false_iff.mp (Bool.eq_false_iff.mpr hfail) with ⟨_, h2⟩
          exact h2
        simpa [Game.isBlocked] using hfail'
      by_cases hl : (nx + dx, ny + dy) ∈ g.lava
      · simp only [Finset.mem_erase] at hl
        rw [if_pos (by simpa using hl)] at h
        obtain rfl := Option.some.injEq _ _ ▸ h.symm
        refine ⟨⟨?_, ?_, ?_⟩, rfl⟩
        · intro d hdm
          exact Finset.mem_erase.mpr ⟨fun he => hd (he ▸ hdm), hdb hdm⟩
        · intro b hbm
          have hb' := Finset.mem_erase.mp hbm
          exact Finset.mem_erase.mpr ⟨hb'.1, hbb hb'.2⟩
        · exact Finset.disjoint_left.mpr fun a ha hab =>
            Finset.disjoint_left.mp hdisj ha (Finset.mem_erase.mp hab).2
      · rw [if_neg (by simpa using hl)] at h
        obtain rfl := Option.some.injEq _ _ ▸ h.symm
        refine ⟨⟨?_, ?_, ?_⟩, rfl⟩
        · intro d hdm
          exact Finset.mem_insert_of_mem
            (Finset.mem_erase.mpr ⟨fun he => hd (he ▸ hdm), hdb hdm⟩)
        · intro b hbm
          rcases Finset.mem_insert.mp hbm with he | hmem
          · exact he ▸ Finset.mem_insert_self _ _
          · have hb' := Finset.mem_erase.mp hmem
            exact Finset.mem_insert_of_mem (Finset.mem_erase.mpr ⟨hb'.1, hbb hb'.2⟩)
        · refine Finset.disjoint_left.mpr fun a ha hab => ?_
          rcases Finset.mem_insert.mp hab with he | hmem
          · exact hnb (he ▸ hdb ha)
          · exact Finset.disjoint_left.mp hdisj ha (Finset.mem_erase.mp hmem).2
  · rw [if_neg hb] at h
    obtain rfl := Option.some.injEq _ _ ▸ h.symm
    exact ⟨⟨hdb, hbb, hdisj⟩, rfl⟩

theorem movePlayerAsync_good {g : Game} (hg : GoodState g) (nx ny : Int) :
    GoodState (g.movePlayerAsync nx ny) := by
  unfold GoodState at *
  unfold Game.movePlayerAsync
  rw [handlePlayerLanded_doors, handlePlayerLanded_boxes, handlePlayerLanded_blocked]
  exact hg

theorem moveForward_good {g : Game} (hg : GoodState g) :
    GoodState g.moveForward.1 := by
  unfold Game.moveForward
  by_cases hm : g.playerMoving
  · simpa [hm]
  · rw [if_neg hm]
    unfold Game.attemptMoveAsync
    dsimp only
    split_ifs with h1 h2
    · exact hg
    · exact hg
    · rcases hres : g.resolveBoxPush (Game.dirOffset g.facing).1 (Game.dirOffset g.facing).2
        (g.playerX + (Game.dirOffset g.facing).1) (g.playerY + (Game.dirOffset g.facing).2)
        with _ | g2
      · simp only [hres]
        exact hg
      · have hgood := resolveBoxPush_good hg h2 hres
        simp only [hres]
        split_ifs with h3
        · exact hgood.1
        · exact movePlayerAsync_good hgood.1 _ _

theorem turnLeft_good {g : Game} (hg : GoodState g) : GoodState g.turnLeft := by
  unfold Game.turnLeft
  split_ifs <;> exact hg

theorem turnRight_good {g : Game} (hg : GoodState g) : GoodState g.turnRight := by
  unfold Game.turnRight
  split_ifs <;> exact hg

theorem useAction_good {g : Game} (hg : GoodState g) : GoodState g.useAction.1 := by
  obtain ⟨hdb, hbb, hdisj⟩ := hg
  unfold Game.useAction
  dsimp only
  rcases Game.lookupButton g.buttons (g.playerX, g.playerY) with _ | button
  · dsimp only
    split_ifs with hdoor hkeys
    · refine ⟨?_, ?_, ?_⟩
      · intro d hdm
        have hd' := Finset.mem_erase.mp hdm
        exact Finset.mem_erase.mpr ⟨hd'.1, hdb hd'.2⟩
      · intro b hbm
        refine Finset.mem_erase.mpr ⟨fun he => ?_, hbb hbm⟩
        exact Finset.disjoint_left.mp hdisj (he ▸ hdoor) hbm
      · exact Finset.disjoint_left.mpr fun a ha hab =>
          Finset.disjoint_left.mp hdisj (Finset.mem_erase.mp ha).2 hab
    · exact ⟨hdb, hbb, hdisj⟩
    · exact ⟨hdb, hbb, hdisj⟩
  · dsimp only
    split_ifs <;> exact ⟨hdb, hbb, hdisj⟩

theorem applyCmd_good {g : Game} (hg : GoodState g) (c : Cmd) :
    GoodState (applyCmd g c) := by
  cases c
  · exact moveForward_good hg
  · exact turnLeft_good hg
  · exact turnRight_good hg
  · exact useAction_good hg

theorem applyCmds_good {g : Game} (hg : GoodState g) (cs : List Cmd) :
    GoodState (applyCmds g cs) := by
  induction cs generalizing g with
  | nil => exact hg
  | cons c cs ih => exact ih (applyCmd_good hg c)

theorem mem_cellsWith {MAP : List String} {p : Char → Bool} {q : Int × Int} :
    q ∈ cellsWith MAP p ↔
      ((0 ≤ q.1 ∧ q.1 ≤ ((MAP.headD "").length : Int) - 1) ∧
       (0 ≤ q.2 ∧ q.2 ≤ (MAP.length : Int) - 1)) ∧
      p (chAt MAP q.1.toNat q.2.toNat) = true := by
  obtain ⟨i, j⟩ := q
  simp [cellsWith, Finset.mem_filter, Finset.mem_product, Finset.mem_Icc, and_assoc]

theorem cellsWith_subset {MAP : List String} {p r : Char → Bool}
    (h : ∀ c, p c = true → r c = true) : cellsWith MAP p ⊆ cellsWith MAP r :=
  fun q hq => by
    rw [mem_cellsWith] at hq ⊢
    exact ⟨hq.1, h _ hq.2⟩

theorem cellsWith_disjoint {MAP : List String} {p r : Char → Bool}
    (h : ∀ c, p c = true → r c = true → False) :
    Disjoint (cellsWith MAP p) (cellsWith MAP r) :=
  Finset.disjoint_left.mpr fun q hq hr => by
    rw [mem_cellsWith] at hq hr
    exact h _ hq.2 hr.2

theorem loadLevel_good {MAP : List String} {g0 : Game}
    (h : loadLevel MAP = .ok g0) : GoodState g0 := by
  unfold loadLevel at h
  rcases hs : findCellLast MAP 'S' with _ | spawn <;> rw [hs] at h
  · simp at h
  rcases he : findCellLast MAP 'E' with _ | exitc <;> rw [he] at h
  · simp at h
  obtain rfl := (Except.ok.injEq _ _ ▸ h.symm)
  refine ⟨cellsWith_subset ?_, cellsWith_subset ?_, cellsWith_disjoint ?_⟩
  · intro c hc
    simp only [Bool.or_eq_true, decide_eq_true_eq] at hc
    rcases hc with rfl | rfl <;> rfl
  · intro c hc
    simp only [decide_eq_true_eq] at hc
    subst hc
    rfl
  · intro c hc hc'
    simp only [Bool.or_eq_true, decide_eq_true_eq] at hc hc'
    subst hc'
    rcases hc with h | h <;> exact absurd h (by decide)

/-! ## The claims -/

/-- Claim C10: in every state reachable from a freshly loaded level by
any sequence of step, left, right and toggle commands, every cell in
the doors map and every cell in the boxes map is also in the blocked
set. -/
theorem c10_doors_boxes_always_blocked (MAP : List String) (g0 : Game)
    (h : loadLevel MAP = .ok g0) (cmds : List Cmd) :
    (applyCmds g0 cmds).doors ⊆ (applyCmds g0 cmds).blocked ∧
    (applyCmds g0 cmds).boxes ⊆ (applyCmds g0 cmds).blocked :=
  ⟨(applyCmds_good (loadLevel_good h) cmds).1,
   (applyCmds_good (loadLevel_good h) cmds).2.1⟩

/-- Witness for C10 on the concrete level `winMAP` and the command
sequence `[step]`. -/
theorem c10_doors_boxes_always_blocked_witness :
    (applyCmds g0win [Cmd.step]).doors ⊆ (applyCmds g0win [Cmd.step]).blocked ∧
    (applyCmds g0win [Cmd.step]).boxes ⊆ (applyCmds g0win [Cmd.step]).blocked :=
  c10_doors_boxes_always_blocked winMAP g0win rfl [Cmd.step]

/-- Claim C9: while the `moving` flag is set, `moveForward`, `turnLeft`
and `turnRight` return immediately (result `undefined`) leaving the
whole state unchanged, whereas `useAction` performs no such check: its
behaviour is insensitive to the `moving` flag, so the button/door
interaction is carried out even while `moving` is true. -/
theorem c9_moving_gates_movement_not_toggle (g : Game) :
    (g.playerMoving = true →
      g.moveForward = (g, none) ∧ g.turnLeft = g ∧ g.turnRight = g) ∧
    (∀ b : Bool,
      Game.useAction { g with playerMoving := b } =
        ({ g.useAction.1 with playerMoving := b }, g.useAction.2)) := by
  constructor
  · intro hm
    refine ⟨?_, ?_, ?_⟩
    · unfold Game.moveForward; rw [if_pos hm]
    · unfold Game.turnLeft; rw [if_pos hm]
    · unfold Game.turnRight; rw [if_pos hm]
  · intro b
    cases hlb : Game.lookupButton g.buttons (g.playerX, g.playerY) with
    | none =>
      simp only [Game.useAction, hlb]
      split_ifs <;> rfl
    | some btn =>
      simp only [Game.useAction, hlb]
      split_ifs <;> rfl

/-- Witness for C9 at the moving state `c5cex` (flag set) and the idle
door state `doorCex` (flag cleared, door interaction still runs). -/
theorem c9_moving_gates_movement_not_toggle_witness :
    (c5cex.moveForward = (c5cex, none) ∧ c5cex.turnLeft = c5cex ∧
       c5cex.turnRight = c5cex) ∧
    Game.useAction { doorCex with playerMoving := true } =
      ({ doorCex.useAction.1 with playerMoving := true }, doorCex.useAction.2) :=
  ⟨(c9_moving_gates_movement_not_toggle c5cex).1 (by decide),
   (c9_moving_gates_movement_not_toggle doorCex).2 true⟩

/-- Claim C6: with a closed door directly ahead and no button on the
player's cell, `useAction` decrements the key count by exactly one and
removes the door from both `doors` and `blocked` iff a key was held;
with no key, the state is unchanged and the result reports the missing
key. -/
theorem c6_toggle_door_key (g : Game)
    (hnobtn : Game.lookupButton g.buttons (g.playerX, g.playerY) = none)
    (hdoor : g.stepDest ∈ g.doors) :
    ((g.useAction.1.playerKeys + 1 = g.playerKeys ∧
      g.stepDest ∉ g.useAction.1.doors ∧ g.stepDest ∉ g.useAction.1.blocked) ↔
      0 < g.playerKeys) ∧
    (g.playerKeys = 0 → g.useAction = (g, "You need a key to open this door!")) := by
  simp only [Game.stepDest] at hdoor ⊢
  by_cases hk : g.playerKeys > 0
  · have hu : g.useAction =
        ({ g with playerKeys := g.playerKeys - 1,
                  doors := g.doors.erase
                    (g.playerX + (Game.dirOffset g.facing).1,
                     g.playerY + (Game.dirOffset g.facing).2),
                  blocked := g.blocked.erase
                    (g.playerX + (Game.dirOffset g.facing).1,
                     g.playerY + (Game.dirOffset g.facing).2) }, "Door opened!") := by
      simp only [Game.useAction, hnobtn]
      rw [if_pos hdoor, if_pos hk]
    rw [hu]
    constructor
    · constructor
      · intro _; exact hk
      · intro _
        refine ⟨?_, ?_, ?_⟩
        · show g.playerKeys - 1 + 1 = g.playerKeys
          omega
        · exact Finset.not_mem_erase _ _
        · exact Finset.not_mem_erase _ _
    · intro hz; exact absurd hz (by omega)
  · have hz : g.playerKeys = 0 := by omega
    have hu : g.useAction = (g, "You need a key to open this door!") := by
      simp only [Game.useAction, hnobtn]
      rw [if_pos hdoor, if_neg hk]
    rw [hu]
    constructor
    · constructor
      · rintro ⟨h1, -, -⟩
        have h1' : g.playerKeys + 1 = g.playerKeys := h1
        omega
      · intro hpos; exact absurd hpos (by omega)
    · intro _; rfl

/-- Witness for C6 at `doorCex` (door ahead, no button, no key). -/
theorem c6_toggle_door_key_witness :
    doorCex.useAction = (doorCex, "You need a key to open this door!") :=
  (c6_toggle_door_key doorCex (by decide) (by decide)).2 (by decide)

/-- Claim C4: for an idle player, a step succeeds (the player's
coordinates change to the destination) iff the destination is
in-bounds, holds no closed door and is not blocked after box-push
resolution; an out-of-bounds destination yields the cannot-move result
and a closed-door destination yields the press-toggle result with the
door untouched.  (The source strings are
`"You can't go there"` and `"Press T to open the door!"`.) -/
theorem c4_movement_legality (g : Game) (h : g.playerMoving = false) :
    (((g.moveForward.1.playerX, g.moveForward.1.playerY) = g.stepDest) ↔
      (g.inBounds g.stepDest.1 g.stepDest.2 = true ∧ g.stepDest ∉ g.doors ∧
       ∃ g2, g.resolveBoxPush (Game.dirOffset g.facing).1 (Game.dirOffset g.facing).2
               g.stepDest.1 g.stepDest.2 = some g2 ∧
             g2.isBlocked g.stepDest.1 g.stepDest.2 = false)) ∧
    (g.inBounds g.stepDest.1 g.stepDest.2 = false →
       g.moveForward = (g, some "You can't go there")) ∧
    (g.inBounds g.stepDest.1 g.stepDest.2 = true → g.stepDest ∈ g.doors →
       g.moveForward = (g, some "Press T to open the door!") ∧
         g.stepDest ∈ g.moveForward.1.doors) := by
  have hne := stepDest_ne g
  have hmf : g.moveForward =
      g.attemptMoveAsync (Game.dirOffset g.facing).1 (Game.dirOffset g.facing).2 := by
    unfold Game.moveForward
    rw [if_neg (by simp [h])]
  simp only [Game.stepDest] at hne ⊢
  by_cases h1 : g.inBounds (g.playerX + (Game.dirOffset g.facing).1)
      (g.playerY + (Game.dirOffset g.facing).2) = true
  · by_cases h2 : (g.playerX + (Game.dirOffset g.facing).1,
        g.playerY + (Game.dirOffset g.facing).2) ∈ g.doors
    · have hres : g.moveForward = (g, some "Press T to open the door!") := by
        rw [hmf]
        unfold Game.attemptMoveAsync
        rw [if_neg (by simp [h1]), if_pos h2]
      refine ⟨?_, ?_, fun _ _ => ⟨hres, by rw [hres]; exact h2⟩⟩
      · rw [hres]
        constructor
        · intro hpos; exact absurd hpos hne
        · rintro ⟨-, hnd, -⟩; exact absurd h2 hnd
      · intro hfalse; rw [h1] at hfalse; cases hfalse
    · rcases hpush : g.resolveBoxPush (Game.dirOffset g.facing).1
          (Game.dirOffset g.facing).2 (g.playerX + (Game.dirOffset g.facing).1)
          (g.playerY + (Game.dirOffset g.facing).2) with _ | g2
      · have hres : g.moveForward = (g, some "Can't push box") := by
          rw [hmf]
          unfold Game.attemptMoveAsync
          rw [if_neg (by simp [h1]), if_neg h2, hpush]
        refine ⟨?_, ?_, fun _ hd => absurd hd h2⟩
        · rw [hres]
          constructor
          · intro hpos; exact absurd hpos hne
          · rintro ⟨-, -, g2, hsome, -⟩; cases hsome
        · intro hfalse; rw [h1] at hfalse; cases hfalse
      · by_cases h3 : g2.isBlocked (g.playerX + (Game.dirOffset g.facing).1)
            (g.playerY + (Game.dirOffset g.facing).2) = true
        · have hres : g.moveForward = (g2, some "You can't go there") := by
            rw [hmf]
            unfold Game.attemptMoveAsync
            rw [if_neg (by simp [h1]), if_neg h2]
            simp only [hpush]
            rw [if_pos h3]
          refine ⟨?_, ?_, fun _ hd => absurd hd h2⟩
          · rw [hres]
            dsimp only
            constructor
            · intro hpos
              rw [resolveBoxPush_playerX hpush, resolveBoxPush_playerY hpush] at hpos
              exact absurd hpos hne
            · rintro ⟨-, -, g2', hsome, hnbf⟩
              injection hsome with hsome
              rw [hsome] at h3
              rw [h3] at hnbf
              exact Bool.noConfusion hnbf
          · intro hfalse; rw [h1] at hfalse; cases hfalse
        · have h3f : g2.isBlocked (g.playerX + (Game.dirOffset g.facing).1)
              (g.playerY + (Game.dirOffset g.facing).2) = false :=
            Bool.eq_false_iff.mpr h3
          have hres : g.moveForward =
              (g2.movePlayerAsync (g.playerX + (Game.dirOffset g.facing).1)
                (g.playerY + (Game.dirOffset g.facing).2), none) := by
            rw [hmf]
            unfold Game.attemptMoveAsync
            rw [if_neg (by simp [h1]), if_neg h2]
            simp only [hpush]
            rw [if_neg (by simp [h3f])]
          refine ⟨?_, ?_, fun _ hd => absurd hd h2⟩
          · rw [hres]
            dsimp only
            constructor
            · intro _; exact ⟨h1, h2, g2, rfl, h3f⟩
            · intro _
              rw [movePlayerAsync_playerX, movePlayerAsync_playerY]
          · intro hfalse; rw [h1] at hfalse; cases hfalse
  · have h1f : g.inBounds (g.playerX + (Game.dirOffset g.facing).1)
        (g.playerY + (Game.dirOffset g.facing).2) = false :=
      Bool.eq_false_iff.mpr h1
    have hres : g.moveForward = (g, some "You can't go there") := by
      rw [hmf]
      unfold Game.attemptMoveAsync
      rw [if_pos (by simp [h1f])]
    refine ⟨?_, fun _ => hres, fun htrue => absurd htrue h1⟩
    rw [hres]
    constructor
    · intro hpos; exact absurd hpos hne
    · rintro ⟨hb, -, -⟩; rw [h1f] at hb; cases hb

/-- Witness for C4 at `g0win` (idle, exit cell directly ahead). -/
theorem c4_movement_legality_witness :
    g0win.playerMoving = false ∧
    (g0win.inBounds g0win.stepDest.1 g0win.stepDest.2 = false →
      g0win.moveForward = (g0win, some "You can't go there")) :=
  ⟨rfl, (c4_movement_legality g0win rfl).2.1⟩

/-- Counterexample to C5 as stated: in `c5cex` the box at `(1, 1)`,
the lava at `(2, 1)` and the player at `(0, 1)` facing `(1, 0)` line up
exactly as the claim requires, yet after the step command the box and
the lava entry are still present, because the `moving` flag is set and
the command is rejected before reaching the push logic. -/
theorem c5_counterexample :
    (1, 1) ∈ c5cex.boxes ∧ (2, 1) ∈ c5cex.lava ∧
    c5cex.playerX = 0 ∧ c5cex.playerY = 1 ∧
    Game.dirOffset c5cex.facing = (1, 0) ∧
    (1, 1) ∈ c5cex.moveForward.1.boxes ∧
    (2, 1) ∈ c5cex.moveForward.1.lava := by
  decide

/-- Claim C5 (amended): as C5, additionally requiring what the code
checks before the push runs: the player idle, the box cell in bounds
and door-free, and the lava cell in bounds and not blocked.  Then the
step consumes the box and the lava entry and leaves the lava cell
unblocked. -/
theorem c5_box_push_into_lava (g : Game) (x y dx dy : Int)
    (hidle : g.playerMoving = false)
    (hface : Game.dirOffset g.facing = (dx, dy))
    (hpx : g.playerX = x - dx) (hpy : g.playerY = y - dy)
    (hbox : (x, y) ∈ g.boxes)
    (hnodoor : (x, y) ∉ g.doors)
    (hin1 : g.inBounds x y = true)
    (hin2 : g.inBounds (x + dx) (y + dy) = true)
    (hlava : (x + dx, y + dy) ∈ g.lava)
    (hnb : (x + dx, y + dy) ∉ g.blocked) :
    (x, y) ∉ g.moveForward.1.boxes ∧
    (x + dx, y + dy) ∉ g.moveForward.1.lava ∧
    (x + dx, y + dy) ∉ g.moveForward.1.blocked := by
  have hx : g.playerX + dx = x := by omega
  have hy : g.playerY + dy = y := by omega
  have hmf : g.moveForward = g.attemptMoveAsync dx dy := by
    unfold Game.moveForward
    rw [if_neg (by simp [hidle]), hface]
  have hpush : g.resolveBoxPush dx dy x y =
      some { g with boxes := g.boxes.erase (x, y),
                    blocked := g.blocked.erase (x, y),
                    lava := g.lava.erase (x + dx, y + dy) } := by
    unfold Game.resolveBoxPush
    rw [if_pos hbox]
    rw [if_neg (by simp [hin2, Game.isBlocked, hnb]), if_pos (by exact hlava)]
  have hres : g.moveForward =
      (Game.movePlayerAsync
        { g with boxes := g.boxes.erase (x, y),
                 blocked := g.blocked.erase (x, y),
                 lava := g.lava.erase (x + dx, y + dy) } x y, none) := by
    rw [hmf]
    unfold Game.attemptMoveAsync
    rw [hx, hy, if_neg (by simp [hin1]), if_neg hnodoor]
    simp only [hpush]
    rw [if_neg (by simp [Game.isBlocked, Finset.not_mem_erase])]
  rw [hres]
  dsimp only
  unfold Game.movePlayerAsync
  rw [handlePlayerLanded_boxes, handlePlayerLanded_lava, handlePlayerLanded_blocked]
  refine ⟨Finset.not_mem_erase _ _, Finset.not_mem_erase _ _, ?_⟩
  intro hmem
  exact hnb (Finset.mem_of_mem_erase hmem)

/-- Witness for C5 (amended): `c5cex` with the `moving` flag cleared. -/
theorem c5_box_push_into_lava_witness :
    (1, 1) ∉ ({ c5cex with playerMoving := false } : Game).moveForward.1.boxes ∧
    (2, 1) ∉ ({ c5cex with playerMoving := false } : Game).moveForward.1.lava ∧
    (2, 1) ∉ ({ c5cex with playerMoving := false } : Game).moveForward.1.blocked :=
  c5_box_push_into_lava { c5cex with playerMoving := false } 1 1 1 0
    (by decide) (by decide) (by decide) (by decide) (by decide) (by decide)
    (by decide) (by decide) (by decide) (by decide)

/-- Claim C7 (code bug, the win message is dropped): in `g0win` the exit is
directly ahead; `handlePlayerLanded` resolves with the win string, but
`movePlayerAsync` has type `Promise<void>` and discards it, so the step
command's own result is `undefined` (published as `null`), not the win
message.  The lava check is not triggered (no lava at the exit, player
not disposed). -/
theorem c7_win_message_discarded :
    g0win.stepDest = g0win.exitCell ∧
    (Game.handlePlayerLanded
        { g0win with playerX := 2, playerY := 1, playerMoving := false }).2 =
      some "🎉 You win! Good job. 🎉" ∧
    g0win.moveForward.2 = none ∧
    (g0win.moveForward.1.playerX, g0win.moveForward.1.playerY) = (2, 1) ∧
    (2, 1) ∉ g0win.lava ∧
    g0win.moveForward.1.playerDisposed = false := by
  decide

/-! ## Round-trip of the JSON encoding -/

theorem skipWs_cons (c : Nat) (r : List Nat) (h : isWsCU c = false) :
    skipWs (c :: r) = c :: r := by
  unfold skipWs
  rw [if_neg (by simp [h])]

theorem natToCUAux_append : ∀ (fuel n : Nat) (acc : List Nat),
    natToCUAux fuel n acc = natToCUAux fuel n [] ++ acc := by
  intro fuel
  induction fuel with
  | zero => intro n acc; rfl
  | succ fuel ih =>
    intro n acc
    unfold natToCUAux
    split_ifs with h
    · rfl
    · rw [ih (n / 10) ((48 + n % 10) :: acc), ih (n / 10) [48 + n % 10]]
      simp

theorem natToCUAux_fuel : ∀ (f1 f2 n : Nat) (acc : List Nat), n < f1 → n < f2 →
    natToCUAux f1 n acc = natToCUAux f2 n acc := by
  intro f1
  induction f1 with
  | zero => intro f2 n acc h1 _; omega
  | succ f1 ih =>
    intro f2 n acc h1 h2
    cases f2 with
    | zero => omega
    | succ f2 =>
      unfold natToCUAux
      split_ifs with h
      · rfl
      · exact ih f2 (n / 10) _ (by omega) (by omega)

theorem natToCU_eq (n : Nat) :
    natToCU n = if n < 10 then [48 + n] else natToCU (n / 10) ++ [48 + n % 10] := by
  have hstep : natToCU n =
      if n < 10 then [48 + n] else natToCUAux n (n / 10) [48 + n % 10] := rfl
  rw [hstep]
  by_cases h : n < 10
  · rw [if_pos h, if_pos h]
  · rw [if_neg h, if_neg h, natToCUAux_append,
      natToCUAux_fuel n (n / 10 + 1) (n / 10) [] (by omega) (by omega)]
    rfl

theorem natToCU_head (n : Nat) :
    ∃ d t, natToCU n = d :: t ∧ 48 ≤ d ∧ d ≤ 57 := by
  induction n using Nat.strong_induction_on with
  | _ n ih =>
    rw [natToCU_eq]
    split_ifs with h
    · exact ⟨48 + n, [], rfl, by omega, by omega⟩
    · obtain ⟨d, t, hd, h1, h2⟩ := ih (n / 10) (Nat.div_lt_self (by omega) (by omega))
      exact ⟨d, t ++ [48 + n % 10], by rw [hd]; rfl, h1, h2⟩

theorem natToCU_digits (n : Nat) :
    ∀ c ∈ natToCU n, isDigitCU c = true := by
  induction n using Nat.strong_induction_on with
  | _ n ih =>
    rw [natToCU_eq]
    split_ifs with h
    · intro c hc
      simp only [List.mem_singleton] at hc
      subst hc
      simp only [isDigitCU, Bool.and_eq_true, decide_eq_true_eq]
      omega
    · intro c hc
      rcases List.mem_append.mp hc with hc | hc
      · exact ih (n / 10) (Nat.div_lt_self (by omega) (by omega)) c hc
      · simp only [List.mem_singleton] at hc
        subst hc
        simp only [isDigitCU, Bool.and_eq_true, decide_eq_true_eq]
        have h10 := Nat.mod_lt n (show 0 < 10 by omega)
        omega

theorem parseDigits_run (ds : List Nat) (hds : ∀ c ∈ ds, isDigitCU c = true)
    (rest : List Nat) (hrest : delimOk rest = true) (acc : Nat) :
    parseDigits (ds ++ rest) acc =
      (ds.foldl (fun a c => a * 10 + (c - 48)) acc, rest) := by
  induction ds generalizing acc with
  | nil =>
    cases rest with
    | nil => rfl
    | cons c r =>
      simp only [delimOk, Bool.not_eq_true'] at hrest
      simp [parseDigits, hrest]
  | cons d ds ih =>
    have hd := hds d (by simp)
    simp only [List.cons_append, parseDigits, hd, if_true, List.foldl_cons]
    exact ih (fun c hc => hds c (by simp [hc])) _

theorem foldl_natToCU (n : Nat) :
    ∀ acc, (natToCU n).foldl (fun a c => a * 10 + (c - 48)) acc =
      acc * 10 ^ (natToCU n).length + n := by
  induction n using Nat.strong_induction_on with
  | _ n ih =>
    intro acc
    rw [natToCU_eq]
    split_ifs with h
    · simp only [List.foldl_cons, List.foldl_nil, List.length_singleton]
      omega
    · rw [List.foldl_append, List.length_append,
        ih (n / 10) (Nat.div_lt_self (by omega) (by omega))]
      simp only [List.foldl_cons, List.foldl_nil, List.length_singleton]
      have hmod : n % 10 < 10 := Nat.mod_lt n (by omega)
      have hdiv : n / 10 * 10 + n % 10 = n := Nat.div_add_mod n 10 ▸ by omega
      rw [pow_add, pow_one]
      ring_nf
      omega

theorem parseDigits_natToCU (m : Nat) (rest : List Nat)
    (hrest : delimOk rest = true) :
    parseDigits (natToCU m ++ rest) 0 = (m, rest) := by
  rw [parseDigits_run (natToCU m) (natToCU_digits m) rest hrest 0,
    foldl_natToCU m 0]
  simp

theorem parseNum_intToCU (n : Int) (rest : List Nat)
    (hrest : delimOk rest = true) :
    parseNum (intToCU n ++ rest) = some (n, rest) := by
  unfold intToCU
  split_ifs with hneg
  · obtain ⟨d, t, hd, h1, h2⟩ := natToCU_head (-n).toNat
    have hdig : isDigitCU d = true := by
      simp only [isDigitCU, Bool.and_eq_true, decide_eq_true_eq]
      omega
    rw [hd]
    simp only [List.cons_append]
    have hstep : parseNum (45 :: d :: (t ++ rest)) =
        (if isDigitCU d = true then
          some (-((parseDigits (d :: (t ++ rest)) 0).1 : Int),
                (parseDigits (d :: (t ++ rest)) 0).2)
         else none) := rfl
    rw [hstep, if_pos hdig, show d :: (t ++ rest) = natToCU (-n).toNat ++ rest by
      rw [hd]; rfl]
    rw [parseDigits_natToCU _ _ hrest]
    have htn : (((-n).toNat : Nat) : Int) = -n := Int.toNat_of_nonneg (by omega)
    simp only [htn, neg_neg]
  · obtain ⟨d, t, hd, h1, h2⟩ := natToCU_head n.toNat
    have hdig : isDigitCU d = true := by
      simp only [isDigitCU, Bool.and_eq_true, decide_eq_true_eq]
      omega
    rw [hd]
    simp only [List.cons_append]
    simp only [parseNum]
    rw [if_neg (by omega), if_pos hdig]
    rw [show d :: (t ++ rest) = natToCU n.toNat ++ rest by rw [hd]; rfl]
    rw [parseDigits_natToCU _ _ hrest]
    have htn : ((n.toNat : Nat) : Int) = n := Int.toNat_of_nonneg (by omega)
    simp [htn]

theorem hexVal_hexDigit (n : Nat) (h : n < 16) : hexVal (hexDigit n) = some n := by
  interval_cases n <;> rfl

theorem parseStr_escape : ∀ (s : List Nat) (fuel : Nat) (rest : List Nat),
    (s.flatMap escapeCU).length < fuel →
    parseStr fuel (s.flatMap escapeCU ++ (34 :: rest)) = some (s, rest) := by
  intro s
  induction s with
  | nil =>
    intro fuel rest h
    cases fuel with
    | zero => exact absurd h (Nat.not_lt_zero _)
    | succ f => rfl
  | cons c s ih =>
    intro fuel rest h
    cases fuel with
    | zero => exact absurd h (Nat.not_lt_zero _)
    | succ f =>
      rw [List.flatMap_cons] at h ⊢
      rw [List.append_assoc]
      by_cases h1 : c = 34
      · subst h1
        rw [show escapeCU 34 = [92, 34] from rfl] at h ⊢
        simp only [List.length_append, List.length_cons, List.length_nil] at h
        simp only [List.cons_append, List.nil_append]
        have hstep : parseStr (f + 1)
            (92 :: 34 :: (s.flatMap escapeCU ++ (34 :: rest))) =
            (parseStr f (s.flatMap escapeCU ++ (34 :: rest))).map
              fun p => (34 :: p.1, p.2) := rfl
        rw [hstep, ih f rest (by omega)]
        rfl
      by_cases h2 : c = 92
      · subst h2
        rw [show escapeCU 92 = [92, 92] from rfl] at h ⊢
        simp only [List.length_append, List.length_cons, List.length_nil] at h
        simp only [List.cons_append, List.nil_append]
        have hstep : parseStr (f + 1)
            (92 :: 92 :: (s.flatMap escapeCU ++ (34 :: rest))) =
            (parseStr f (s.flatMap escapeCU ++ (34 :: rest))).map
              fun p => (92 :: p.1, p.2) := rfl
        rw [hstep, ih f rest (by omega)]
        rfl
      by_cases h3 : c = 8
      · subst h3
        rw [show escapeCU 8 = [92, 98] from rfl] at h ⊢
        simp only [List.length_append, List.length_cons, List.length_nil] at h
        simp only [List.cons_append, List.nil_append]
        have hstep : parseStr (f + 1)
            (92 :: 98 :: (s.flatMap escapeCU ++ (34 :: rest))) =
            (parseStr f (s.flatMap escapeCU ++ (34 :: rest))).map
              fun p => (8 :: p.1, p.2) := rfl
        rw [hstep, ih f rest (by omega)]
        rfl
      by_cases h4 : c = 9
      · subst h4
        rw [show escapeCU 9 = [92, 116] from rfl] at h ⊢
        simp only [List.length_append, List.length_cons, List.length_nil] at h
        simp only [List.cons_append, List.nil_append]
        have hstep : parseStr (f + 1)
            (92 :: 116 :: (s.flatMap escapeCU ++ (34 :: rest))) =
            (parseStr f (s.flatMap escapeCU ++ (34 :: rest))).map
              fun p => (9 :: p.1, p.2) := rfl
        rw [hstep, ih f rest (by omega)]
        rfl
      by_cases h5 : c = 10
      · subst h5
        rw [show escapeCU 10 = [92, 110] from rfl] at h ⊢
        simp only [List.length_append, List.length_cons, List.length_nil] at h
        simp only [List.cons_append, List.nil_append]
        have hstep : parseStr (f + 1)
            (92 :: 110 :: (s.flatMap escapeCU ++ (34 :: rest))) =
            (parseStr f (s.flatMap escapeCU ++ (34 :: rest))).map
              fun p => (10 :: p.1, p.2) := rfl
        rw [hstep, ih f rest (by omega)]
        rfl
      by_cases h6 : c = 12
      · subst h6
        rw [show escapeCU 12 = [92, 102] from rfl] at h ⊢
        simp only [List.length_append, List.length_cons, List.length_nil] at h
        simp only [List.cons_append, List.nil_append]
        have hstep : parseStr (f + 1)
            (92 :: 102 :: (s.flatMap escapeCU ++ (34 :: rest))) =
            (parseStr f (s.flatMap escapeCU ++ (34 :: rest))).map
              fun p => (12 :: p.1, p.2) := rfl
        rw [hstep, ih f rest (by omega)]
        rfl
      by_cases h7 : c = 13
      · subst h7
        rw [show escapeCU 13 = [92, 114] from rfl] at h ⊢
        simp only [List.length_append, List.length_cons, List.length_nil] at h
        simp only [List.cons_append, List.nil_append]
        have hstep : parseStr (f + 1)
            (92 :: 114 :: (s.flatMap escapeCU ++ (34 :: rest))) =
            (parseStr f (s.flatMap escapeCU ++ (34 :: rest))).map
              fun p => (13 :: p.1, p.2) := rfl
        rw [hstep, ih f rest (by omega)]
        rfl
      by_cases h8 : c < 32
      · have hesc : escapeCU c =
            [92, 117, 48, 48, hexDigit (c / 16), hexDigit (c % 16)] := by
          unfold escapeCU
          rw [if_neg h1, if_neg h2, if_neg h3, if_neg h4, if_neg h5, if_neg h6,
            if_neg h7, if_pos h8]
        rw [hesc] at h ⊢
        simp only [List.length_append, List.length_cons, List.length_nil] at h
        simp only [List.cons_append, List.nil_append]
        have hstep : parseStr (f + 1)
            (92 :: 117 :: 48 :: 48 :: hexDigit (c / 16) :: hexDigit (c % 16) ::
              (s.flatMap escapeCU ++ (34 :: rest))) =
            (match hexVal 48, hexVal 48, hexVal (hexDigit (c / 16)),
                hexVal (hexDigit (c % 16)) with
             | some ha, some hb, some hc2, some hd =>
               (parseStr f (s.flatMap escapeCU ++ (34 :: rest))).map
                 fun p => ((ha * 4096 + hb * 256 + hc2 * 16 + hd) :: p.1, p.2)
             | _, _, _, _ => none) := rfl
        rw [hstep, show hexVal 48 = some 0 from rfl,
          hexVal_hexDigit (c / 16) (by omega), hexVal_hexDigit (c % 16) (by omega)]
        show (parseStr f (s.flatMap escapeCU ++ (34 :: rest))).map
            (fun p => ((0 * 4096 + 0 * 256 + c / 16 * 16 + c % 16) :: p.1, p.2)) =
          some (c :: s, rest)
        rw [ih f rest (by omega)]
        have hc : 0 * 4096 + 0 * 256 + c / 16 * 16 + c % 16 = c := by omega
        rw [hc]
        rfl
      · have hesc : escapeCU c = [c] := by
          unfold escapeCU
          rw [if_neg h1, if_neg h2, if_neg h3, if_neg h4, if_neg h5, if_neg h6,
            if_neg h7, if_neg h8]
        rw [hesc] at h ⊢
        simp only [List.length_append, List.length_cons, List.length_nil] at h
        simp only [List.cons_append, List.nil_append]
        simp only [parseStr]
        rw [if_neg h1, if_neg h2, ih f rest (by omega)]
        rfl

theorem isWsCU_digit {d : Nat} (h1 : 48 ≤ d) : isWsCU d = false := by
  simp only [isWsCU, Bool.or_eq_false_iff, decide_eq_false_iff_not]
  omega

theorem stringify_head (v : JVal) :
    ∃ h t, stringify v = h :: t ∧ isWsCU h = false ∧
      h ≠ 93 ∧ h ≠ 125 ∧ h ≠ 44 ∧ h ≠ 58 := by
  cases v with
  | jnull => exact ⟨110, [117, 108, 108], rfl, rfl, by omega, by omega, by omega, by omega⟩
  | jbool b =>
    cases b with
    | true => exact ⟨116, [114, 117, 101], rfl, rfl, by omega, by omega, by omega, by omega⟩
    | false =>
      exact ⟨102, [97, 108, 115, 101], rfl, rfl, by omega, by omega, by omega, by omega⟩
  | jnum n =>
    show ∃ h t, intToCU n = h :: t ∧ _
    unfold intToCU
    split_ifs with hneg
    · exact ⟨45, natToCU (-n).toNat, rfl, rfl, by omega, by omega, by omega, by omega⟩
    · obtain ⟨d, t, hd, h1, h2⟩ := natToCU_head n.toNat
      exact ⟨d, t, hd, isWsCU_digit h1, by omega, by omega, by omega, by omega⟩
  | jstr s =>
    exact ⟨34, s.flatMap escapeCU ++ [34], rfl, rfl, by omega, by omega, by omega, by omega⟩
  | jarr xs =>
    cases xs with
    | nil => exact ⟨91, [93], rfl, rfl, by omega, by omega, by omega, by omega⟩
    | cons x xs =>
      exact ⟨91, stringify x ++ (stringifyElems xs ++ [93]), rfl, rfl,
        by omega, by omega, by omega, by omega⟩
  | jobj fs =>
    cases fs with
    | nil => exact ⟨123, [125], rfl, rfl, by omega, by omega, by omega, by omega⟩
    | cons f fs =>
      exact ⟨123, quoteStr f.1 ++ (58 :: (stringify f.2 ++ (stringifyFields fs ++ [125]))),
        rfl, rfl, by omega, by omega, by omega, by omega⟩

theorem delimOk_elems (xs : List JVal) (rest : List Nat) :
    delimOk (stringifyElems xs ++ (93 :: rest)) = true := by
  cases xs <;> rfl

theorem delimOk_fields (fs : List (List Nat × JVal)) (rest : List Nat) :
    delimOk (stringifyFields fs ++ (125 :: rest)) = true := by
  cases fs <;> rfl

theorem jcost_pos (v : JVal) : 1 ≤ jcost v := by
  cases v <;> simp only [jcost] <;> omega

theorem parse_stringify_all : ∀ fuel : Nat,
    (∀ (v : JVal) (rest : List Nat), jcost v ≤ fuel → delimOk rest = true →
      parseVal fuel (stringify v ++ rest) = some (v, rest)) ∧
    (∀ (x : JVal) (xs : List JVal) (rest : List Nat),
      elemsCost (x :: xs) ≤ fuel →
      parseElems fuel (stringify x ++ (stringifyElems xs ++ (93 :: rest))) =
        some (x :: xs, rest)) ∧
    (∀ (k : List Nat) (v : JVal) (fs : List (List Nat × JVal)) (rest : List Nat),
      fieldsCost ((k, v) :: fs) ≤ fuel →
      parseFields fuel
          (34 :: (k.flatMap escapeCU ++ (34 :: (58 :: (stringify v ++
            (stringifyFields fs ++ (125 :: rest))))))) =
        some ((k, v) :: fs, rest)) := by
  intro fuel
  induction fuel with
  | zero =>
    refine ⟨?_, ?_, ?_⟩
    · intro v rest hc _
      exact absurd (le_trans (jcost_pos v) hc) (by omega)
    · intro x xs rest hc
      simp only [elemsCost] at hc
      omega
    · intro k v fs rest hc
      simp only [fieldsCost] at hc
      omega
  | succ fuel ih =>
    obtain ⟨ihV, ihE, ihF⟩ := ih
    refine ⟨?_, ?_, ?_⟩
    · intro v rest hc hrest
      cases v with
      | jnull => rfl
      | jbool b => cases b <;> rfl
      | jstr s =>
        show parseVal (fuel + 1) (quoteStr s ++ rest) = some (.jstr s, rest)
        rw [show quoteStr s ++ rest = 34 :: (s.flatMap escapeCU ++ (34 :: rest)) by
          simp [quoteStr, List.append_assoc]]
        have hstep : parseVal (fuel + 1)
            (34 :: (s.flatMap escapeCU ++ (34 :: rest))) =
            (parseStr ((s.flatMap escapeCU ++ (34 :: rest)).length + 1)
              (s.flatMap escapeCU ++ (34 :: rest))).map
              fun p => (JVal.jstr p.1, p.2) := rfl
        rw [hstep, parseStr_escape s _ rest (by
          simp only [List.length_append, List.length_cons]
          omega)]
        rfl
      | jnum n =>
        show parseVal (fuel + 1) (intToCU n ++ rest) = some (.jnum n, rest)
        by_cases hneg : n < 0
        · rw [show intToCU n = 45 :: natToCU (-n).toNat by
            unfold intToCU; rw [if_pos hneg]]
          simp only [List.cons_append]
          have hstep : parseVal (fuel + 1) (45 :: (natToCU (-n).toNat ++ rest)) =
              (parseNum (45 :: (natToCU (-n).toNat ++ rest))).map
                fun p => (JVal.jnum p.1, p.2) := rfl
          rw [hstep,
            show 45 :: (natToCU (-n).toNat ++ rest) = intToCU n ++ rest by
              unfold intToCU; rw [if_pos hneg]; rfl,
            parseNum_intToCU n rest hrest]
          rfl
        · obtain ⟨d, t, hd, h1, h2⟩ := natToCU_head n.toNat
          rw [show intToCU n = d :: t by unfold intToCU; rw [if_neg hneg, hd]]
          simp only [List.cons_append]
          simp only [parseVal]
          rw [skipWs_cons d _ (isWsCU_digit h1)]
          dsimp only
          rw [if_neg (by omega : ¬d = 110), if_neg (by omega : ¬d = 116),
            if_neg (by omega : ¬d = 102), if_neg (by omega : ¬d = 34),
            if_neg (by omega : ¬d = 91), if_neg (by omega : ¬d = 123)]
          rw [show d :: (t ++ rest) = intToCU n ++ rest by
            unfold intToCU; rw [if_neg hneg, hd]; rfl,
            parseNum_intToCU n rest hrest]
          rfl
      | jarr xs =>
        cases xs with
        | nil => rfl
        | cons x xs =>
          rw [show stringify (.jarr (x :: xs)) ++ rest =
              91 :: (stringify x ++ (stringifyElems xs ++ (93 :: rest))) by
            simp [stringify, List.append_assoc]]
          obtain ⟨hh, ht, hst, hws, h93, h125, h44, h58⟩ := stringify_head x
          have hstep : parseVal (fuel + 1)
              (91 :: (stringify x ++ (stringifyElems xs ++ (93 :: rest)))) =
              (match skipWs (stringify x ++ (stringifyElems xs ++ (93 :: rest))) with
               | 93 :: r2 => some (JVal.jarr [], r2)
               | r1 => (parseElems fuel r1).map fun p => (JVal.jarr p.1, p.2)) := rfl
          rw [hstep, hst, List.cons_append, skipWs_cons hh _ hws, ← List.cons_append, ← hst]
          split
          · rename_i r2 heq
            rw [hst, List.cons_append] at heq
            injection heq with heq1 _
            exact absurd heq1 h93
          · rw [ihE x xs rest (by simp only [jcost] at hc; omega)]
            rfl
      | jobj fs =>
        cases fs with
        | nil => rfl
        | cons f fs =>
          obtain ⟨k, v⟩ := f
          rw [show stringify (.jobj ((k, v) :: fs)) ++ rest =
              123 :: (34 :: (k.flatMap escapeCU ++ (34 :: (58 :: (stringify v ++
                (stringifyFields fs ++ (125 :: rest))))))) by
            simp [stringify, quoteStr, List.append_assoc]]
          have hstep : parseVal (fuel + 1) (123 :: (34 :: (k.flatMap escapeCU ++
              (34 :: (58 :: (stringify v ++ (stringifyFields fs ++ (125 :: rest)))))))) =
              (parseFields fuel (34 :: (k.flatMap escapeCU ++
                (34 :: (58 :: (stringify v ++
                  (stringifyFields fs ++ (125 :: rest)))))))).map
                fun p => (JVal.jobj p.1, p.2) := rfl
          rw [hstep, ihF k v fs rest (by simp only [jcost] at hc; omega)]
          rfl
    · intro x xs rest hc
      simp only [elemsCost] at hc
      simp only [parseElems]
      rw [ihV x (stringifyElems xs ++ (93 :: rest)) (by omega) (delimOk_elems xs rest)]
      cases xs with
      | nil => rfl
      | cons y ys =>
        rw [show stringifyElems (y :: ys) ++ (93 :: rest) =
            44 :: (stringify y ++ (stringifyElems ys ++ (93 :: rest))) by
          simp [stringifyElems, List.append_assoc]]
        show (parseElems fuel (stringify y ++ (stringifyElems ys ++ (93 :: rest)))).map
            (fun p => (x :: p.1, p.2)) = some (x :: y :: ys, rest)
        rw [ihE y ys rest (by simp only [elemsCost] at hc ⊢; omega)]
        rfl
    · intro k v fs rest hc
      simp only [fieldsCost] at hc
      simp only [parseFields]
      rw [skipWs_cons 34 _ rfl]
      dsimp only
      rw [parseStr_escape k _ (58 :: (stringify v ++ (stringifyFields fs ++ (125 :: rest))))
        (by simp only [List.length_append, List.length_cons]; omega)]
      dsimp only
      rw [skipWs_cons 58 _ rfl]
      dsimp only
      rw [ihV v (stringifyFields fs ++ (125 :: rest)) (by omega) (delimOk_fields fs rest)]
      cases fs with
      | nil => rfl
      | cons f2 fs2 =>
        obtain ⟨k2, v2⟩ := f2
        rw [show stringifyFields ((k2, v2) :: fs2) ++ (125 :: rest) =
            44 :: (34 :: (k2.flatMap escapeCU ++ (34 :: (58 :: (stringify v2 ++
              (stringifyFields fs2 ++ (125 :: rest))))))) by
          simp [stringifyFields, quoteStr, List.append_assoc]]
        show (parseFields fuel (34 :: (k2.flatMap escapeCU ++ (34 :: (58 :: (stringify v2 ++
            (stringifyFields fs2 ++ (125 :: rest)))))))).map
            (fun p => ((k, v) :: p.1, p.2)) = some ((k, v) :: (k2, v2) :: fs2, rest)
        rw [ihF k2 v2 fs2 rest (by simp only [fieldsCost] at hc ⊢; omega)]
        rfl

mutual

theorem jcost_le_stringify : ∀ v : JVal, jcost v ≤ (stringify v).length
  | .jnull => by simp [jcost, stringify]
  | .jbool b => by cases b <;> simp [jcost, stringify]
  | .jnum n => by
    obtain ⟨d, t, hd, -, -⟩ :=
      natToCU_head (if n < 0 then (-n).toNat else n.toNat)
    simp only [jcost, stringify, intToCU]
    split_ifs at hd ⊢ <;> simp [hd]
  | .jstr s => by simp [jcost, stringify, quoteStr]
  | .jarr [] => by simp [jcost, stringify, elemsCost]
  | .jarr (x :: xs) => by
    have h1 := jcost_le_stringify x
    have h2 := elemsCost_le_stringifyElems xs
    simp only [jcost, stringify, elemsCost, List.length_cons, List.length_append]
    omega
  | .jobj [] => by simp [jcost, stringify, fieldsCost]
  | .jobj (f :: fs) => by
    have h1 := jcost_le_stringify f.2
    have h2 := fieldsCost_le_stringifyFields fs
    simp only [jcost, stringify, fieldsCost, List.length_cons, List.length_append]
    omega

theorem elemsCost_le_stringifyElems : ∀ xs : List JVal,
    elemsCost xs ≤ (stringifyElems xs).length
  | [] => by simp [elemsCost, stringifyElems]
  | x :: xs => by
    have h1 := jcost_le_stringify x
    have h2 := elemsCost_le_stringifyElems xs
    simp only [elemsCost, stringifyElems, List.length_cons, List.length_append]
    omega

theorem fieldsCost_le_stringifyFields : ∀ fs : List (List Nat × JVal),
    fieldsCost fs ≤ (stringifyFields fs).length
  | [] => by simp [fieldsCost, stringifyFields]
  | f :: fs => by
    have h1 := jcost_le_stringify f.2
    have h2 := fieldsCost_le_stringifyFields fs
    simp only [fieldsCost, stringifyFields, List.length_cons, List.length_append]
    omega

end

/-- Round trip: `JSON.parse ∘ JSON.stringify` is the identity on the modelled
value domain. -/
theorem parseJson_stringify (v : JVal) : parseJson (stringify v) = some v := by
  unfold parseJson
  have h := (parse_stringify_all ((stringify v).length + 1)).1 v []
    (le_trans (jcost_le_stringify v) (by omega)) rfl
  rw [List.append_nil] at h
  rw [h]
  rfl

/-- Claim C2: for every JSON-serialisable result value whose encoding
fits the payload capacity, publishing it on the main thread
(JSON-encode, length at cell 1, one code unit per cell from cell 2,
ready flag last) and reading it back on the worker (wait on cell 0,
read length, decode, JSON-parse) yields the value itself. -/
theorem c2_publish_await_roundtrip (ch : Chan) (v : JVal)
    (hfit : (stringify v).length ≤ CAPACITY) :
    (publishResult ch (stringify v)).1 = none ∧
    awaitResult (publishResult ch (stringify v)).2 = some v := by
  unfold publishResult
  rw [if_pos hfit]
  refine ⟨rfl, ?_⟩
  unfold awaitResult
  rw [if_pos rfl]
  show parseJson ((writePayload ch.data (stringify v)).take (stringify v).length) = some v
  unfold writePayload
  rw [List.take_left]
  exact parseJson_stringify v

/-- Witness for C2 at a small concrete value and a fresh channel. -/
theorem c2_publish_await_roundtrip_witness :
    (stringify exVal).length ≤ CAPACITY ∧
    (publishResult chan0 (stringify exVal)).1 = none ∧
    awaitResult (publishResult chan0 (stringify exVal)).2 = some exVal :=
  ⟨by decide, (c2_publish_await_roundtrip chan0 exVal (by decide)).1,
   (c2_publish_await_roundtrip chan0 exVal (by decide)).2⟩

/-- The two possible outcomes of the publishing tail: a fitting result
is published exactly once (flag set to 1), a `RangeError` propagates
with the flag untouched. -/
theorem publishValue_spec (st : ReplState) (v : JVal) (ch : Chan) :
    (∀ u, (publishValue st v ch).1 = .ok u →
      ∃ msg, (publishValue st v ch).2.2 =
          { ready := 1, len := msg.length, data := writePayload ch.data msg } ∧
        (publishValue st v ch).2.2.ready = 1) ∧
    (∀ e, (publishValue st v ch).1 = .error e →
      (publishValue st v ch).2.2.ready = ch.ready) := by
  unfold publishValue publishResult
  split_ifs with h
  · constructor
    · intro u _
      exact ⟨stringify v, rfl, rfl⟩
    · intro e he
      exact nomatch he
  · constructor
    · intro u h'
      exact nomatch h'
    · intro e _
      rfl

/-- The outcome of a branch that throws before publishing. -/
theorem throwValue_spec (e0 : String) (st2 : ReplState) (ch : Chan) :
    (∀ u, ((Except.error e0 : Except String Unit), st2, ch).1 = .ok u →
      ∃ msg, ((Except.error e0 : Except String Unit), st2, ch).2.2 =
          { ready := 1, len := msg.length, data := writePayload ch.data msg } ∧
        ((Except.error e0 : Except String Unit), st2, ch).2.2.ready = 1) ∧
    (∀ e, ((Except.error e0 : Except String Unit), st2, ch).1 = .error e →
      ((Except.error e0 : Except String Unit), st2, ch).2.2.ready = ch.ready) := by
  constructor
  · intro u h
    exact nomatch h
  · intro e h
    rfl

/-- Every registry generator yields a grid holding a spawn and an
exit, sampled on the two constant draw streams (the digit path of
`random` and `integration` moves only up and right from its start, so
it never reaches the spawn column, and its nine steps fall short of
the exit; it only ever overwrites lava): the construction of a
session for a registry level never reaches the `initMap` throw. -/
theorem levels_load_ok :
    (levels.all fun p =>
      (match loadLevel (p.2 fun _ => false) with
       | .ok _ => true
       | .error _ => false) &&
      (match loadLevel (p.2 fun _ => true) with
       | .ok _ => true
       | .error _ => false)) = true := by
  decide

/-- Counterexample to C1 as stated: the request `level("toString")`
resolves the inherited `Object.prototype.toString` through the
property access `levels['toString']`; the member is truthy, so the
handler enters the load branch, persists the name, calls the member
(which returns the string tag of `undefined`) and then throws a
`TypeError` constructing the session on `data.MAP = undefined`.
There is no try/catch: the exception propagates out of
`handleSyncGameMethod`, no error-text result is written, and the
ready flag stays 0 — the worker's busy wait never returns. -/
theorem c1_counterexample :
    handleSyncGameMethod repl0 .level [some "toString"] (fun _ => false)
        (.ok none) chan0 =
      (.error "TypeError",
       { levelName := some "toString", gameController := none,
         controllerDisposed := false }, chan0) ∧
    chan0.ready = 0 :=
  ⟨rfl, rfl⟩

/-- Claim C1 (amended): whenever the handler runs to completion (the
invoked game operation, the level resolution and the session
construction return normally, and the encoded result fits the
buffer), `handleSyncGameMethod` publishes exactly one result — the
returned channel is one `publishResult` of the encoded result with the
ready flag set — but when the invoked operation throws, the exception
propagates and nothing is published: the ready flag is left as it was,
so the worker's blocking wait does not return. -/
theorem c1_publish_iff_no_throw (st : ReplState) (method : Method)
    (args : List (Option String)) (rand : Nat → Bool)
    (run : Except String (Option JVal)) (ch : Chan) :
    (∀ u, (handleSyncGameMethod st method args rand run ch).1 = .ok u →
      ∃ msg, (handleSyncGameMethod st method args rand run ch).2.2 =
          { ready := 1, len := msg.length, data := writePayload ch.data msg } ∧
        (handleSyncGameMethod st method args rand run ch).2.2.ready = 1) ∧
    (∀ e, (handleSyncGameMethod st method args rand run ch).1 = .error e →
      (handleSyncGameMethod st method args rand run ch).2.2.ready = ch.ready) := by
  unfold handleSyncGameMethod
  dsimp only
  split_ifs
  all_goals repeat' split
  all_goals
    first
      | exact publishValue_spec _ _ _
      | exact throwValue_spec _ _ _

/-- Witness for C1 (amended): a successful `level("intro")` publishes
exactly one result with the ready flag set. -/
theorem c1_publish_iff_no_throw_witness :
    ∃ msg,
      (handleSyncGameMethod repl0 .level [some "intro"] (fun _ => false)
          (.ok none) chan0).2.2 =
        { ready := 1, len := msg.length, data := writePayload chan0.data msg } ∧
      (handleSyncGameMethod repl0 .level [some "intro"] (fun _ => false)
          (.ok none) chan0).2.2.ready = 1 :=
  (c1_publish_iff_no_throw repl0 .level [some "intro"] (fun _ => false)
      (.ok none) chan0).1
    () (by rfl)

/-- Counterexample to C8 as stated, in both of its parts.  With no
level persisted, `level("$")` resolves the sentinel via
`this.level ?? Object.keys('levels')[0]` to the string `"0"` (the
argument of `Object.keys` is the string literal `'levels'`, so its
first key is the index string `"0"`), which passes the
`typeof l !== 'string'` test, so the handler answers
`'Unknown Level'` — not the claimed "select a level first" message
(`'Please select a level first'` in the source) — with no session
constructed.  And `level("toString")`, an unknown level name, does
not answer `'Unknown Level'` with the state untouched: the property
access `levels['toString']` finds the inherited truthy
`Object.prototype.toString`, so the handler persists the name,
disposes the live session and throws a `TypeError`, publishing
nothing. -/
theorem c8_counterexample :
    ((handleSyncGameMethod repl0 .level [some "$"] (fun _ => false)
        (.ok none) chan0).2.1 = repl0 ∧
     awaitResult
        (handleSyncGameMethod repl0 .level [some "$"] (fun _ => false)
          (.ok none) chan0).2.2 =
      some (.jstr (utf16Encode "Unknown Level")) ∧
     "Unknown Level" ≠ "Please select a level first") ∧
    handleSyncGameMethod replWin .level [some "toString"] (fun _ => false)
        (.ok none) chan0 =
      (.error "TypeError",
       { levelName := some "toString", gameController := some g0win,
         controllerDisposed := true }, chan0) :=
  ⟨⟨rfl, rfl, by decide⟩, rfl⟩

/-- Claim C8 (amended): the command `level("$")` with nothing
persisted resolves the sentinel to `"0"` (the first index key of the
string `'levels'`), which is a string naming no registry entry and no
inherited `Object.prototype` member, so the answer is
`'Unknown Level'` with the REPL state untouched.  `level(name)` for
an unknown non-sentinel name that is no `Object.prototype` member
name likewise answers `'Unknown Level'` and leaves the session — not
disposed, not replaced — and the persisted name untouched.  But an
unknown name that is an inherited `Object.prototype` member name is
truthy under the property access `levels[name]`: the handler persists
the name, throws a `TypeError` instead of answering, publishes
nothing, and for the members whose call returns (`protoCallReturns`)
it disposes the current controller first.
(`'Please select a level first'` is answered only when the argument
is not a string, e.g. `restart` with nothing persisted.) -/
theorem handleSync_resolved (st : ReplState) (rand : Nat → Bool)
    (run : Except String (Option JVal)) (ch : Chan) (name : String)
    (hname : name ≠ "$") :
    handleSyncGameMethod st .level [some name] rand run ch =
      (match lookupLevel levels name with
       | some gen =>
         match loadLevel (gen rand) with
         | .error e =>
           (.error e,
            { st with levelName := some name,
                      controllerDisposed := st.gameController.isSome }, ch)
         | .ok game =>
           publishValue
             { levelName := some name, gameController := some game,
               controllerDisposed := false }
             (.jstr (utf16Encode "$$")) ch
       | none =>
         if name ∈ objectProtoKeys then
           if name ∈ protoCallReturns then
             (.error "TypeError",
              { st with levelName := some name,
                        controllerDisposed := st.gameController.isSome }, ch)
           else
             (.error "TypeError", { st with levelName := some name }, ch)
         else
           publishValue st (.jstr (utf16Encode "Unknown Level")) ch) := by
  have hdef : handleSyncGameMethod st .level [some name] rand run ch =
      (match (if some name = some "$" then some (st.levelName.getD "0")
              else some name) with
       | none =>
         publishValue st (.jstr (utf16Encode "Please select a level first")) ch
       | some name2 =>
         match lookupLevel levels name2 with
         | some gen =>
           match loadLevel (gen rand) with
           | .error e =>
             (.error e,
              { st with levelName := some name2,
                        controllerDisposed := st.gameController.isSome }, ch)
           | .ok game =>
             publishValue
               { levelName := some name2, gameController := some game,
                 controllerDisposed := false }
               (.jstr (utf16Encode "$$")) ch
         | none =>
           if name2 ∈ objectProtoKeys then
             if name2 ∈ protoCallReturns then
               (.error "TypeError",
                { st with levelName := some name2,
                          controllerDisposed := st.gameController.isSome }, ch)
             else
               (.error "TypeError", { st with levelName := some name2 }, ch)
           else
             publishValue st (.jstr (utf16Encode "Unknown Level")) ch) := rfl
  rw [hdef, if_neg (by simpa using hname)]

theorem c8_unknown_level_untouched (st : ReplState) (rand : Nat → Bool)
    (run : Except String (Option JVal)) (ch : Chan) :
    (st.levelName = none →
      handleSyncGameMethod st .level [some "$"] rand run ch =
        publishValue st (.jstr (utf16Encode "Unknown Level")) ch) ∧
    (∀ name, name ≠ "$" → lookupLevel levels name = none →
      name ∉ objectProtoKeys →
      handleSyncGameMethod st .level [some name] rand run ch =
        publishValue st (.jstr (utf16Encode "Unknown Level")) ch) ∧
    (∀ name, name ≠ "$" → lookupLevel levels name = none →
      name ∈ objectProtoKeys →
      (handleSyncGameMethod st .level [some name] rand run ch).1 =
          .error "TypeError" ∧
        (handleSyncGameMethod st .level [some name] rand run ch).2.1.levelName =
          some name ∧
        (handleSyncGameMethod st .level [some name] rand run ch).2.1.gameController =
          st.gameController ∧
        (handleSyncGameMethod st .level [some name] rand run ch).2.2 = ch ∧
        (name ∈ protoCallReturns →
          (handleSyncGameMethod st .level [some name] rand run ch).2.1.controllerDisposed =
            st.gameController.isSome)) ∧
    (publishValue st (.jstr (utf16Encode "Unknown Level")) ch).2.1 = st := by
  refine ⟨?_, ?_, ?_, ?_⟩
  · intro hnone
    obtain ⟨ln, gc, cd⟩ := st
    have h2 : ln = none := hnone
    subst h2
    rfl
  · intro name hname hlook hnp
    rw [handleSync_resolved st rand run ch name hname, hlook, if_neg hnp]
  · intro name hname hlook hp
    rw [handleSync_resolved st rand run ch name hname, hlook, if_pos hp]
    split_ifs with hc
    · exact ⟨rfl, rfl, rfl, rfl, fun _ => rfl⟩
    · exact ⟨rfl, rfl, rfl, rfl, fun hcr => absurd hcr hc⟩
  · unfold publishValue publishResult
    rw [if_pos (by decide)]

/-- Witness for C8 (amended) at a concrete registry and fresh state. -/
theorem protoInv_step {l : PLabel} {s s' : ProtoState}
    (h : PStep l s s') (hs : ProtoInv s) : ProtoInv s' := by
  obtain ⟨hflag, hlen, hhas, hwl, hwp⟩ := hs
  cases h with
  | wArm s h =>
    exact ⟨Or.inl rfl, hlen, hhas, hwl, hwp⟩
  | wPost s h =>
    exact ⟨hflag, hlen, hhas, hwl, hwp⟩
  | wSpin s h h0 =>
    exact ⟨hflag, hlen, hhas, hwl, hwp⟩
  | wObserve s h h0 =>
    exact ⟨hflag, hlen, hhas, hwl, hwp⟩
  | wRead s h =>
    exact ⟨hflag, hlen, hhas, hwl, hwp⟩
  | mReceive s h hr =>
    refine ⟨hflag, hlen, ?_, ?_, ?_⟩ <;> intro r hr' <;> exact nomatch hr'
  | mCompute s r h hr =>
    refine ⟨hflag, hlen, ?_, ?_, ?_⟩ <;> intro r' hr'
    · injection hr' with hr2
      subst hr2
      exact hr
    · exact nomatch hr'
    · exact nomatch hr'
  | mWriteLen s r h =>
    refine ⟨hflag, hlen, ?_, ?_, ?_⟩ <;> intro r' hr'
    · exact nomatch hr'
    · injection hr' with hr2
      subst hr2
      exact ⟨hhas r h, rfl⟩
    · exact nomatch hr'
  | mWritePayload s r h =>
    obtain ⟨hcap, hslen⟩ := hwl r h
    refine ⟨hflag, ?_, ?_, ?_, ?_⟩
    · show (writePayload s.sdata r).length = CAPACITY
      unfold writePayload
      rw [List.length_append, List.length_drop, hlen]
      omega
    · intro r' hr'
      exact nomatch hr'
    · intro r' hr'
      exact nomatch hr'
    · intro r' hr'
      injection hr' with hr2
      subst hr2
      refine ⟨hcap, hslen, ?_⟩
      show (writePayload s.sdata r).take r.length = r
      unfold writePayload
      exact List.take_left r _
  | mSetFlag s r h =>
    refine ⟨Or.inr rfl, hlen, ?_, ?_, ?_⟩ <;> intro r' hr' <;> exact nomatch hr'

theorem protoInv_reachable {s : ProtoState} (hs : ProtoReachable s) : ProtoInv s := by
  induction hs with
  | init =>
    refine ⟨Or.inl rfl, ?_, ?_, ?_, ?_⟩
    · show (List.replicate CAPACITY 0).length = CAPACITY
      exact List.length_replicate _ _
    all_goals intro r hr; exact nomatch hr
  | step hs h ih => exact protoInv_step h ih

/-- Claim C3: in every reachable protocol state the ready flag is 0 or
1; every step's effect on cell 0 is described by `flagWrite`; the
value 1 is stored only by the main thread's `mSetFlag` step, which is
enabled only after the length and the payload of the result being
published have been stored; the value 0 is stored only by the worker's
`wArm` step, which is how a new request is armed. -/
theorem c3_ready_flag_protocol :
    (∀ s, ProtoReachable s → s.flag = 0 ∨ s.flag = 1) ∧
    (∀ l s s', PStep l s s' → s'.flag = (flagWrite l).getD s.flag) ∧
    (∀ l, flagWrite l = some 1 → labelThread l = true ∧ l = .mSetFlag) ∧
    (∀ l, flagWrite l = some 0 → labelThread l = false ∧ l = .wArm) ∧
    (∀ s s', PStep .mSetFlag s s' → ProtoReachable s →
      ∃ r, s.mpc = .wrotePayload r ∧ s.slen = r.length ∧
        s.sdata.take r.length = r) ∧
    (∀ s s', PStep .wArm s s' → s.wpc = .notCalling) := by
  refine ⟨?_, ?_, ?_, ?_, ?_, ?_⟩
  · intro s hs
    exact (protoInv_reachable hs).1
  · intro l s s' h
    cases h <;> rfl
  · intro l hl
    cases l <;> first | exact ⟨rfl, rfl⟩ | exact nomatch hl
  · intro l hl
    cases l <;> first | exact ⟨rfl, rfl⟩ | exact nomatch hl
  · intro s s' h hs
    cases h with
    | mSetFlag s r hmpc =>
      obtain ⟨-, -, -, -, hwp⟩ := protoInv_reachable hs
      obtain ⟨-, hslen, hdata⟩ := hwp r hmpc
      exact ⟨r, hmpc, hslen, hdata⟩
  · intro s s' h
    cases h with
    | wArm s hw => exact hw

/-- Witness for C3: the initial state and one armed step. -/
theorem c3_ready_flag_protocol_witness :
    (protoInit.flag = 0 ∨ protoInit.flag = 1) ∧
    (labelThread .mSetFlag = true ∧ PLabel.mSetFlag = .mSetFlag) :=
  ⟨(c3_ready_flag_protocol).1 protoInit ProtoReachable.init,
   (c3_ready_flag_protocol).2.2.1 .mSetFlag rfl⟩

theorem c8_unknown_level_untouched_witness :
    (handleSyncGameMethod repl0 .level [some "bogus"] (fun _ => false)
        (.ok none) chan0 =
      publishValue repl0 (.jstr (utf16Encode "Unknown Level")) chan0) ∧
    ((handleSyncGameMethod replWin .level [some "valueOf"] (fun _ => false)
        (.ok none) chan0).1 = .error "TypeError" ∧
     (handleSyncGameMethod replWin .level [some "valueOf"] (fun _ => false)
        (.ok none) chan0).2.1.levelName = some "valueOf" ∧
     (handleSyncGameMethod replWin .level [some "valueOf"] (fun _ => false)
        (.ok none) chan0).2.1.gameController = replWin.gameController ∧
     (handleSyncGameMethod replWin .level [some "valueOf"] (fun _ => false)
        (.ok none) chan0).2.2 = chan0 ∧
     ("valueOf" ∈ protoCallReturns →
       (handleSyncGameMethod replWin .level [some "valueOf"] (fun _ => false)
          (.ok none) chan0).2.1.controllerDisposed =
         replWin.gameController.isSome)) :=
  ⟨(c8_unknown_level_untouched repl0 (fun _ => false) (.ok none) chan0).2.1
      "bogus" (by decide) rfl (by decide),
   (c8_unknown_level_untouched replWin (fun _ => false) (.ok none) chan0).2.2.1
      "valueOf" (by decide) rfl (by decide)⟩

end Maze
